import Mathlib

/-!
# Verification of the pdssp/pystac node hierarchy and link-resolution engine

This file is a shallow embedding, in Lean 4, of the core of
`src/pystac/pystac.py` (plus the small slice of `src/pystac/constants.py`
that the core uses): the STAC catalog / collection / item node model, the
relative-link computation, title propagation, extension registration, the
JSON projection, and the observer registry used by `save` and `tree`.

Modelling conventions:
* Python exceptions become `Except PyErr`; `ValueError`, `TypeError` and
  `IndexError` are the three error shapes the embedded code can raise.
* Python `str.split(sep)` and `str.replace(old, new)` are re-implemented
  (`pySplit`, `pyReplace`) with the exact CPython semantics used by the
  source (single-character separator; non-overlapping left-to-right
  replacement of every occurrence).
* Python dicts become insertion-ordered association lists with
  `dictSet` / `dictUpdate` / `dictGet` implementing the assignment,
  `dict.update` and lookup semantics (overwrite in place, append new keys).
* Object references are replaced by explicit state passing: an operation
  that mutates the parent link list of a node returns the updated list.
* Enumerated vocabularies (licenses, roles) are carried as opaque string
  tokens, as the design treats them as external validated tokens.
* The numeric payload of geometries is abstracted (floats are out of
  scope); only the structure that the constructors touch is kept.
-/

set_option autoImplicit false

/-- The Python exceptions raised by the embedded code. -/
inductive PyErr where
  | valueError (msg : String)
  | typeError (msg : String)
  | indexError
  deriving DecidableEq, Repr

/-- Embeds `constants.RelationTypes` (only the members the core uses).
The wire value of each member is given by `RelationTypes.value`. -/
inductive RelationTypes where
  | SELF
  | ROOT
  | PARENT
  | CHILD
  | ITEM
  deriving DecidableEq, Repr

/-- The `.value` payload of each `RelationTypes` member. -/
def RelationTypes.value : RelationTypes → String
  | .SELF => "self"
  | .ROOT => "root"
  | .PARENT => "parent"
  | .CHILD => "child"
  | .ITEM => "item"

/-- Embeds `constants.MediaType`.  In the source, `DocEnum.__new__` stores
only the first tuple component in `_value_`, and Python `Enum` aliases any
member whose `_value_` equals an earlier member `_value_`.  Since
`STAC_CATALOG = ("application/json", ...)` and
`STAC_COLLECTION = ("application/json", ...)`, `STAC_COLLECTION` is an
alias of `STAC_CATALOG`: the enum has exactly two distinct members, one
per wire value. -/
inductive MediaType where
  | APPLICATION_JSON
  | APPLICATION_GEO_JSON
  deriving DecidableEq, Repr

/-- `MediaType.STAC_CATALOG` (wire value `application/json`). -/
def MediaType.STAC_CATALOG : MediaType := .APPLICATION_JSON

/-- `MediaType.STAC_COLLECTION`: a Python enum alias of `STAC_CATALOG`
(same `_value_`, hence the same member object at runtime). -/
def MediaType.STAC_COLLECTION : MediaType := .APPLICATION_JSON

/-- `MediaType.STAC_ITEM` (wire value `application/geo+json`). -/
def MediaType.STAC_ITEM : MediaType := .APPLICATION_GEO_JSON

/-- The `.value` payload of each `MediaType` member. -/
def MediaType.value : MediaType → String
  | .APPLICATION_JSON => "application/json"
  | .APPLICATION_GEO_JSON => "application/geo+json"

/-- JSON values, the target of the `to_dict` / `to_json` projections. -/
inductive Json where
  | null
  | bool (b : Bool)
  | str (s : String)
  | int (n : Int)
  | arr (elems : List Json)
  | obj (fields : List (String × Json))
  deriving Repr

/-- Python dict assignment `d[k] = v` on an insertion-ordered association
list: overwrite the (unique) existing entry in place, else append. -/
def dictSet : List (String × Json) → String → Json → List (String × Json)
  | [], k, v => [(k, v)]
  | (k', v') :: rest, k, v =>
    if k' = k then (k, v) :: rest else (k', v') :: dictSet rest k v

/-- Python `d.update(e)`: assign every entry of `e` into `d`, in order. -/
def dictUpdate (d e : List (String × Json)) : List (String × Json) :=
  e.foldl (fun acc kv => dictSet acc kv.1 kv.2) d

/-- Python dict lookup `d[k]` (as an `Option`). -/
def dictGet (d : List (String × Json)) (k : String) : Option Json :=
  (d.find? (fun kv => kv.1 == k)).map (fun kv => kv.2)

/-- The keys of an association list, in order. -/
def dictKeys (d : List (String × Json)) : List String :=
  d.map (fun kv => kv.1)

/-- CPython `str.split(sep)` for a single-character separator, on the
character list: `"".split("/") = [""]`, separators delimit (possibly
empty) fields. -/
def pySplitL (sep : Char) : List Char → List (List Char)
  | [] => [[]]
  | c :: rest =>
    if c = sep then [] :: pySplitL sep rest
    else
      match pySplitL sep rest with
      | [] => [[c]]
      | g :: gs => (c :: g) :: gs

/-- CPython `s.split(sep)` for a single-character separator. -/
def pySplit (sep : Char) (s : String) : List String :=
  (pySplitL sep s.toList).map (fun cs => String.mk cs)

/-- CPython `s.replace(pat, rep)` on character lists: replace every
non-overlapping occurrence of `pat`, scanning left to right.  (For the
degenerate empty pattern CPython splices `rep` between characters; the
source only ever calls `replace(old, "")`, where both behaviours are the
identity, and this embedding keeps the string unchanged.) -/
def pyReplaceL (pat rep : List Char) : Nat → List Char → List Char
  | 0, _ => []
  | _, [] => []
  | fuel + 1, c :: rest =>
    if pat ≠ [] ∧ pat.isPrefixOf (c :: rest) then
      rep ++ pyReplaceL pat rep fuel (List.drop (pat.length - 1) rest)
    else
      c :: pyReplaceL pat rep fuel rest

/-- CPython `s.replace(pat, rep)`.  The fuel argument of `pyReplaceL` is
the length of the subject: every step consumes at least one subject
character and exactly one unit of fuel, so the fuel never runs out before
the subject does and the fuelled recursion computes the same function as
the unfuelled scan. -/
def pyReplace (s pat rep : String) : String :=
  String.mk (pyReplaceL pat.toList rep.toList s.toList.length s.toList)

/-- Embeds `Utils.fix_directory_syntax`: strip one trailing `/`.  The
source indexes `directory[-1]` unguarded, so the empty string raises an
`IndexError`. -/
def Utils.fix_directory (directory : String) : Except PyErr String :=
  if directory = "" then .error PyErr.indexError
  else if directory.back = '/' then .ok (directory.dropRight 1)
  else .ok directory

example : Utils.fix_directory "/tmp/" = .ok "/tmp" := rfl
example : Utils.fix_directory "/" = .ok "" := rfl
example : Utils.fix_directory "" = .error PyErr.indexError := rfl
example : pySplit '/' "/first_cat/first_coll" = ["", "first_cat", "first_coll"] := by decide
example : pySplit '/' "" = [""] := by decide
example : pyReplace "/a/x/a" "/a" "" = "/x" := by decide
example : pyReplace "/first_cat" "" "" = "/first_cat" := by decide

/-- Embeds the `Link` object: `href` and `rel` are fixed at construction,
`type` and `title` start as `None` and are set through checked setters
(the setters only accept the statically typed values, so the embedding
carries the fields directly). -/
structure Link where
  href : String
  rel : RelationTypes
  type : Option MediaType
  title : Option String
  deriving DecidableEq, Repr

/-- Embeds `Link.to_dict`: `href` and `rel` always, `type` and `title`
only when set. -/
def Link.to_dict (l : Link) : Json :=
  Json.obj
    (let d := dictSet (dictSet [] "href" (Json.str l.href)) "rel" (Json.str l.rel.value)
     let d := match l.type with
       | some t => dictSet d "type" (Json.str t.value)
       | none => d
     match l.title with
       | some t => dictSet d "title" (Json.str t)
       | none => d)

/-- State of a `StacCatalog` (also the base state of a `StacCollection`,
which Python holds in the same name-mangled `_StacCatalog__*` slots).
The `parent` back-reference is not stored: operations that read or write
the parent receive its state explicitly. -/
structure StacCatalog where
  type : String
  directory : String
  id : String
  path : String
  description : String
  stac_version : String
  links : List Link
  stac_extensions : List String
  stac_extensions_properties : List (String × Json)
  title : Option String

/-- Embeds `StacCatalog._create_root_link`.  Without a parent the root
href is `./<id>.json`; with a parent the filename of the first `root`
link of the parent is re-targeted under
`len(self.path.split("/")[1:-1]) + 1` repetitions of `..`.  The two
`IndexError` branches mirror the unguarded `[0]` and `[-1]` subscripts. -/
def StacCatalog.create_root_link (node : StacCatalog) (parent : Option StacCatalog) :
    Except PyErr Link :=
  match parent with
  | none =>
    .ok { href := "." ++ "/" ++ (node.id ++ ".json"), rel := RelationTypes.ROOT,
          type := some MediaType.STAC_CATALOG, title := none }
  | some p =>
    match ((p.links.filter (fun l => l.rel == RelationTypes.ROOT)).map Link.href).head? with
    | none => .error PyErr.indexError
    | some root =>
      match (pySplit '/' root).getLast? with
      | none => .error PyErr.indexError
      | some filename =>
        let frags : List String := ((pySplit '/' node.path).drop 1).dropLast
        let back : List String := List.replicate (frags.length + 1) ".."
        let back_path : String := if back.length > 0 then String.intercalate "/" back else "."
        .ok { href := back_path ++ "/" ++ filename, rel := RelationTypes.ROOT,
              type := some MediaType.STAC_CATALOG, title := none }

/-- Embeds `StacCatalog._create_self_link`.  The media type is chosen by
testing `self.type == "Catalog"`; the title falls back to the id. -/
def StacCatalog.create_self_link (node : StacCatalog) (catalog_name : String) : Link :=
  { href := catalog_name, rel := RelationTypes.SELF,
    type := some (if node.type == "Catalog" then MediaType.STAC_CATALOG
                  else MediaType.STAC_COLLECTION),
    title := some (node.title.getD node.id) }

/-- Embeds `StacCatalog._create_child_link`: build the link that the
parent gains.  `child_path` is `self.path.replace(parent.path, "")` —
CPython `replace` removes every occurrence of the parent path, not only
a leading one.  The caller appends the result to the parent links. -/
def StacCatalog.create_child_link (node : StacCatalog) (parent : StacCatalog) :
    Except PyErr Link :=
  let parent_path := parent.path
  let child_path := pyReplace node.path parent_path ""
  let href := "." ++ child_path ++ "/" ++ node.id ++ ".json"
  if node.type == "Catalog" then
    .ok { href := href, rel := RelationTypes.CHILD,
          type := some MediaType.STAC_CATALOG, title := node.title }
  else if node.type == "Collection" then
    .ok { href := href, rel := RelationTypes.CHILD,
          type := some MediaType.STAC_COLLECTION, title := node.title }
  else
    .error (PyErr.typeError ("Unexpected type: " ++ node.type))

/-- Embeds `StacCatalog._create_parent_link`: appended to the node own
links; media type follows the parent `type` string, title mirrors the
parent title when set. -/
def StacCatalog.create_parent_link (parent : StacCatalog) : Except PyErr Link :=
  if parent.type == "Catalog" then
    .ok { href := "../" ++ parent.id ++ ".json", rel := RelationTypes.PARENT,
          type := some MediaType.STAC_CATALOG, title := parent.title }
  else if parent.type == "Collection" then
    .ok { href := "../" ++ parent.id ++ ".json", rel := RelationTypes.PARENT,
          type := some MediaType.STAC_COLLECTION, title := parent.title }
  else
    .error (PyErr.typeError ("Unexpected type: " ++ parent.type))

/-- Embeds `StacCatalog._create_links`: root and self link always; with a
parent additionally the child link (appended to the parent links, which
are returned updated) and the parent link. -/
def StacCatalog.create_links (node : StacCatalog) (parent : Option StacCatalog) :
    Except PyErr (StacCatalog × Option (List Link)) :=
  match parent with
  | none =>
    match node.create_root_link none with
    | .error e => .error e
    | .ok rootL =>
      let node := { node with links := node.links ++ [rootL] }
      let selfL := node.create_self_link (node.id ++ ".json")
      .ok ({ node with links := node.links ++ [selfL] }, none)
  | some p =>
    match node.create_root_link (some p) with
    | .error e => .error e
    | .ok rootL =>
      let node := { node with links := node.links ++ [rootL] }
      let selfL := node.create_self_link (node.id ++ ".json")
      let node := { node with links := node.links ++ [selfL] }
      match node.create_child_link p with
      | .error e => .error e
      | .ok childL =>
        match StacCatalog.create_parent_link p with
        | .error e => .error e
        | .ok parentL =>
          .ok ({ node with links := node.links ++ [parentL] }, some (p.links ++ [childL]))

/-- Embeds `StacCatalog._validate_parent`: without a parent the (already
normalized) path must be empty.  The `isinstance` branch cannot fail in
the typed embedding. -/
def StacCatalog.validate_parent (parent : Option StacCatalog) (path : String) :
    Except PyErr Unit :=
  match parent with
  | none =>
    if path ≠ "" then
      .error (PyErr.valueError "When no parent is set, path must be set to /")
    else .ok ()
  | some _ => .ok ()

/-- Embeds `StacCatalog.__init__` (field order of the source: normalize
`directory`, then `path`, record `title` from kwargs, validate the
parent, create the links).  Returns the node together with the updated
link list of the parent when one was given. -/
def StacCatalog.init (directory id path description stac_version : String)
    (kw_title : Option String) (parent : Option StacCatalog) :
    Except PyErr (StacCatalog × Option (List Link)) :=
  match Utils.fix_directory directory with
  | .error e => .error e
  | .ok dir =>
    match Utils.fix_directory path with
    | .error e => .error e
    | .ok pth =>
      match StacCatalog.validate_parent parent pth with
      | .error e => .error e
      | .ok _ =>
        StacCatalog.create_links
          { type := "Catalog", directory := dir, id := id, path := pth,
            description := description, stac_version := stac_version,
            links := [], stac_extensions := [], stac_extensions_properties := [],
            title := kw_title } parent

/-- `for link in links: if p link: link := f link; break` — update the
first matching element, leave the rest unchanged. -/
def updateFirst : List Link → (Link → Bool) → (Link → Link) → List Link
  | [], _, _ => []
  | l :: ls, p, f => if p l then f l :: ls else l :: updateFirst ls p f

/-- Embeds `StacCatalog._update_self_link_title`: retitle the first
`self` link. -/
def StacCatalog.update_self_link_title (links : List Link) (title : Option String) :
    List Link :=
  updateFirst links (fun l => l.rel == RelationTypes.SELF) (fun l => { l with title := title })

/-- Embeds `StacCatalog._update_child_link_title`: recompute the child
href exactly as `_create_child_link` does and retitle the first link of
the parent whose href matches it exactly. -/
def StacCatalog.update_child_link_title (node : StacCatalog) (parent : StacCatalog)
    (title : Option String) : List Link :=
  let parent_path := parent.path
  let child_path := pyReplace node.path parent_path ""
  let href := "." ++ child_path ++ "/" ++ node.id ++ ".json"
  updateFirst parent.links (fun l => l.href == href) (fun l => { l with title := title })

/-- Embeds the `StacCatalog.title` setter: store the value, retitle the
self link, and, when a parent exists, retitle the matching child link in
the parent (whose updated link list is returned). -/
def StacCatalog.set_title (node : StacCatalog) (parent : Option StacCatalog)
    (value : Option String) : StacCatalog × Option (List Link) :=
  let node := { node with title := value }
  match parent with
  | none => ({ node with links := StacCatalog.update_self_link_title node.links value }, none)
  | some p =>
    ({ node with links := StacCatalog.update_self_link_title node.links value },
     some (node.update_child_link_title p value))

/-- Embeds `StacCatalog.add_stac_extension`: append the extension name
and flat-merge the extension properties (last write wins). -/
def StacCatalog.add_stac_extension (node : StacCatalog) (extension_name : String)
    (properties : List (String × Json)) : StacCatalog :=
  { node with stac_extensions := node.stac_extensions ++ [extension_name],
              stac_extensions_properties :=
                dictUpdate node.stac_extensions_properties properties }

/-- Embeds `StacCatalog.to_json`: base fields in order, then
`stac_extensions` when non-empty, then the flat merge of the extension
properties when non-empty, then `title` when set. -/
def StacCatalog.to_json (node : StacCatalog) : List (String × Json) :=
  let catalog := dictSet [] "type" (Json.str node.type)
  let catalog := dictSet catalog "stac_version" (Json.str node.stac_version)
  let catalog := dictSet catalog "id" (Json.str node.id)
  let catalog := dictSet catalog "description" (Json.str node.description)
  let catalog := dictSet catalog "links" (Json.arr (node.links.map Link.to_dict))
  let catalog :=
    if node.stac_extensions.length > 0 then
      dictSet catalog "stac_extensions" (Json.arr (node.stac_extensions.map Json.str))
    else catalog
  let catalog :=
    if node.stac_extensions_properties.length > 0 then
      dictUpdate catalog node.stac_extensions_properties
    else catalog
  match node.title with
  | some t => dictSet catalog "title" (Json.str t)
  | none => catalog

/-- Embeds a `Provider` value object (`name` mandatory, the rest
optional). -/
structure Provider where
  name : String
  description : Option String
  roles : List String
  url : Option String

/-- State of a `StacCollection`: the inherited `StacCatalog` slots plus
the collection-only fields.  `license` is the opaque wire token of the
`LicenseType` member; `extent` carries the `ExtentObject.to_dict`
projection; `summaries` is a raw mapping. -/
structure StacCollection where
  base : StacCatalog
  license : String
  extent : Json
  keywords : List String
  providers : List Provider
  summaries : Option (List (String × Json))
  assets : Option (List (String × Json))

/-- Embeds `StacCollection._validate_parent` (the override used during
`super().__init__` by dynamic dispatch): a collection must have a
parent. -/
def StacCollection.validate_parent (parent : Option StacCatalog) :
    Except PyErr StacCatalog :=
  match parent with
  | none => .error (PyErr.valueError "parent cannot be None in a collection")
  | some p => .ok p

/-- Embeds `StacCollection.__init__`: run `StacCatalog.__init__` with the
overridden parent validation (so the links, including the self and child
links, are created while `self.type` is still `"Catalog"`), then switch
`type` to `"Collection"` and initialize the collection-only fields. -/
def StacCollection.init (directory id path description : String)
    (license : String) (extent : Json) (stac_version : String)
    (kw_title : Option String) (parent : Option StacCatalog) :
    Except PyErr (StacCollection × Option (List Link)) :=
  match Utils.fix_directory directory with
  | .error e => .error e
  | .ok dir =>
    match Utils.fix_directory path with
    | .error e => .error e
    | .ok pth =>
      match StacCollection.validate_parent parent with
      | .error e => .error e
      | .ok _ =>
        match StacCatalog.create_links
            { type := "Catalog", directory := dir, id := id, path := pth,
              description := description, stac_version := stac_version,
              links := [], stac_extensions := [], stac_extensions_properties := [],
              title := kw_title } parent with
        | .error e => .error e
        | .ok (node, plinks) =>
          .ok ({ base := { node with type := "Collection" }, license := license,
                 extent := extent, keywords := [], providers := [],
                 summaries := none, assets := none }, plinks)

/-- The inherited title setter on a collection acts on the base slots. -/
def StacCollection.set_title (node : StacCollection) (parent : Option StacCatalog)
    (value : Option String) : StacCollection × Option (List Link) :=
  let r := StacCatalog.set_title node.base parent value
  ({ node with base := r.1 }, r.2)

/-- The inherited `add_stac_extension` on a collection acts on the base
slots. -/
def StacCollection.add_stac_extension (node : StacCollection) (extension_name : String)
    (properties : List (String × Json)) : StacCollection :=
  { node with base := node.base.add_stac_extension extension_name properties }

/-- Embeds `Provider.to_dict`. -/
def Provider.to_dict (p : Provider) : Json :=
  Json.obj
    (let d := dictSet [] "name" (Json.str p.name)
     let d := match p.description with
       | some s => dictSet d "description" (Json.str s)
       | none => d
     let d := if p.roles.length > 0 then dictSet d "roles" (Json.arr (p.roles.map Json.str)) else d
     match p.url with
       | some s => dictSet d "url" (Json.str s)
       | none => d)

/-- Embeds `StacCollection.to_json`: the inherited catalog projection,
then `license` and `extent` unconditionally, then the optional
collection fields. -/
def StacCollection.to_json (node : StacCollection) : List (String × Json) :=
  let collection := node.base.to_json
  let collection := dictSet collection "license" (Json.str node.license)
  let collection := dictSet collection "extent" node.extent
  let collection :=
    if node.keywords.length > 0 then
      dictSet collection "keywords" (Json.arr (node.keywords.map Json.str))
    else collection
  let collection :=
    if node.providers.length > 0 then
      dictSet collection "providers" (Json.arr (node.providers.map Provider.to_dict))
    else collection
  let collection := match node.summaries with
    | some s => dictSet collection "summaries" (Json.obj s)
    | none => collection
  match node.assets with
  | some a => dictSet collection "assets" (Json.obj a)
  | none => collection

/-- Embeds `Properties`: the mandatory (nullable) `datetime` plus the
free-form extra mapping, which starts empty. -/
structure Properties where
  datetime : Option String
  other_properties : List (String × Json)

/-- Embeds `Properties.__init__`. -/
def Properties.init (datetime : Option String) : Properties :=
  { datetime := datetime, other_properties := [] }

/-- Embeds the `Properties.other_properties` setter: `None` clears the
mapping in place, a dict is merged into it with `update` (it does not
replace the mapping). -/
def Properties.set_other_properties (p : Properties)
    (value : Option (List (String × Json))) : Properties :=
  match value with
  | none => { p with other_properties := [] }
  | some d => { p with other_properties := dictUpdate p.other_properties d }

/-- The JSON value stored for `properties["datetime"]`. -/
def Properties.datetimeJson (p : Properties) : Json :=
  match p.datetime with
  | some s => Json.str s
  | none => Json.null

/-- Embeds `Properties.to_dict`: a copy of `other_properties` with the
key `datetime` then assigned to `self.datetime` (overwriting any entry
of that name that was smuggled into `other_properties`). -/
def Properties.to_dict (p : Properties) : List (String × Json) :=
  dictSet p.other_properties "datetime" p.datetimeJson

/-- Opaque stand-in for a shapely geometry: only the `bounds` capability
is consumed by the embedded code, and the float payload is abstracted. -/
structure GeometryVal where
  bounds : List Int

/-- Embeds an `AssetObject` (the constructor-settable slots; its
projection is not consumed by any embedded operation). -/
structure AssetObject where
  href : String
  title : Option String
  description : Option String
  type : Option MediaType
  roles : List String

/-- State of a `StacItem`.  As with catalogs the parent reference is
passed explicitly to the operations that use it. -/
structure StacItem where
  type : String
  directory : String
  id : String
  path : String
  geometry : Option GeometryVal
  bbox : Option (List (List Int))
  stac_version : String
  stac_extensions : List String
  properties : Properties
  links : List Link
  assets : List (String × AssetObject)
  collection : Option String

/-- Embeds `StacItem._validate_parent`: an item must have a parent. -/
def StacItem.validate_parent (parent : Option StacCatalog) :
    Except PyErr StacCatalog :=
  match parent with
  | none => .error (PyErr.valueError "parent cannot be None for an item")
  | some p => .ok p

/-- Embeds `StacItem._create_root_link`: same slicing arithmetic as the
catalog version, but the parent is mandatory. -/
def StacItem.create_root_link (node : StacItem) (parent : StacCatalog) :
    Except PyErr Link :=
  match ((parent.links.filter (fun l => l.rel == RelationTypes.ROOT)).map Link.href).head? with
  | none => .error PyErr.indexError
  | some root =>
    match (pySplit '/' root).getLast? with
    | none => .error PyErr.indexError
    | some filename =>
      let frags : List String := ((pySplit '/' node.path).drop 1).dropLast
      let back : List String := List.replicate (frags.length + 1) ".."
      let back_path : String := if back.length > 0 then String.intercalate "/" back else "."
      .ok { href := back_path ++ "/" ++ filename, rel := RelationTypes.ROOT,
            type := some MediaType.STAC_CATALOG, title := none }

/-- Embeds `StacItem._create_self_link`: always the item media type and
the item id as title. -/
def StacItem.create_self_link (node : StacItem) (catalog_name : String) : Link :=
  { href := catalog_name, rel := RelationTypes.SELF,
    type := some MediaType.STAC_ITEM, title := some node.id }

/-- Embeds `StacItem._create_child_link`: the `item` link the parent
gains; same `replace`-based path stripping as the catalog version. -/
def StacItem.create_child_link (node : StacItem) (parent : StacCatalog) : Link :=
  let parent_path := parent.path
  let child_path := pyReplace node.path parent_path ""
  { href := "." ++ child_path ++ "/" ++ node.id ++ ".json", rel := RelationTypes.ITEM,
    type := some MediaType.STAC_ITEM, title := some node.id }

/-- Embeds `StacItem._create_parent_link`. -/
def StacItem.create_parent_link (parent : StacCatalog) : Except PyErr Link :=
  if parent.type == "Catalog" then
    .ok { href := "../" ++ parent.id ++ ".json", rel := RelationTypes.PARENT,
          type := some MediaType.STAC_CATALOG, title := parent.title }
  else if parent.type == "Collection" then
    .ok { href := "../" ++ parent.id ++ ".json", rel := RelationTypes.PARENT,
          type := some MediaType.STAC_COLLECTION, title := parent.title }
  else
    .error (PyErr.typeError ("Unexpected type: " ++ parent.type))

/-- Embeds `StacItem._create_links`: root, self, child (into the parent,
whose updated link list is returned), parent. -/
def StacItem.create_links (node : StacItem) (parent : StacCatalog) :
    Except PyErr (StacItem × List Link) :=
  match node.create_root_link parent with
  | .error e => .error e
  | .ok rootL =>
    let node := { node with links := node.links ++ [rootL] }
    let selfL := node.create_self_link (node.id ++ ".json")
    let node := { node with links := node.links ++ [selfL] }
    let childL := node.create_child_link parent
    match StacItem.create_parent_link parent with
    | .error e => .error e
    | .ok parentL =>
      .ok ({ node with links := node.links ++ [parentL] }, parent.links ++ [childL])

/-- Embeds `StacItem.__init__`: normalize `directory` and `path`, derive
`bbox` from the geometry when present, validate the parent, create the
links.  Returns the item and the updated parent link list. -/
def StacItem.init (directory id path : String) (geometry : Option GeometryVal)
    (properties : Properties) (assets : List (String × AssetObject))
    (stac_version : String) (parent : Option StacCatalog) :
    Except PyErr (StacItem × List Link) :=
  match Utils.fix_directory directory with
  | .error e => .error e
  | .ok dir =>
    match Utils.fix_directory path with
    | .error e => .error e
    | .ok pth =>
      let bbox := match geometry with
        | some g => some [g.bounds]
        | none => none
      match StacItem.validate_parent parent with
      | .error e => .error e
      | .ok p =>
        StacItem.create_links
          { type := "Feature", directory := dir, id := id, path := pth,
            geometry := geometry, bbox := bbox, stac_version := stac_version,
            stac_extensions := [], properties := properties, links := [],
            assets := assets, collection := none } p

/-- Embeds `Observable`: the ordered registry of subscribed observers. -/
structure Observable (α : Type) where
  observers : List α

/-- Embeds `Observable.__init__`. -/
def Observable.new {α : Type} : Observable α := { observers := [] }

/-- Embeds `Observable.subscribe`: `list.append`. -/
def Observable.subscribe {α : Type} (o : Observable α) (observer : α) : Observable α :=
  { o with observers := o.observers ++ [observer] }

/-- Embeds `Observable.notify_observers(event)`: the trace of
`obs.notify(self, event)` calls it performs, in iteration order (the file
or console effects of `notify` itself are outside the embedding). -/
def Observable.notify_observers {α : Type} (o : Observable α) (event : String) :
    List (α × String) :=
  o.observers.map (fun obs => (obs, event))

/-- State of the `PystacLib` builder: the `Observable` registry plus the
normalized root directory.  The configuration store it also loads is an
external collaborator and is not modelled. -/
structure PystacLib (α : Type) where
  observable : Observable α
  directory : String

/-- Embeds `PystacLib.__init__` (the directory normalization; the config
parsing is external).  The `path_to_conf` argument is kept for the
signature only. -/
def PystacLib.init (α : Type) (path_to_conf directory : String) :
    Except PyErr (PystacLib α) :=
  match Utils.fix_directory directory with
  | .error e => .error e
  | .ok d => .ok { observable := Observable.new, directory := d }

/-- `PystacLib` inherits `subscribe` from `Observable`. -/
def PystacLib.subscribe {α : Type} (lib : PystacLib α) (observer : α) : PystacLib α :=
  { lib with observable := lib.observable.subscribe observer }

/-- Embeds `PystacLib.save`: broadcast the `save` event. -/
def PystacLib.save {α : Type} (lib : PystacLib α) : List (α × String) :=
  lib.observable.notify_observers "save"

/-- Embeds `PystacLib.tree`: broadcast the `tree` event. -/
def PystacLib.tree {α : Type} (lib : PystacLib α) : List (α × String) :=
  lib.observable.notify_observers "tree"

/-! ## Derived path vocabulary (the wording of the specification)

`pathSegments` is the number-of-segments notion the specification counts
with (split on `/`, empty fields are not segments); `filenameOf` extracts
the part of an href after its last `/`; `claimRootHref` is the root-href
formula claimed by the specification: one `..` per path segment, joined
with `/`, then `/` and the root filename. -/

/-- The `/`-separated segments of a path, leading/empty fields dropped. -/
def pathSegments (p : String) : List String :=
  (pySplit '/' p).filter (fun s => s != "")

/-- The filename of an href: everything after the last `/`. -/
def filenameOf (href : String) : String :=
  (pySplit '/' href).getLastD ""

/-- The root-link href the specification claims for a node with a parent:
`N` repetitions of `..` joined with `/` (one per path segment of the node
path), then `/` and the filename of the parent root href. -/
def claimRootHref (p : String) (rootHref : String) : String :=
  String.intercalate "/" (List.replicate (pathSegments p).length "..") ++ "/" ++
    filenameOf rootHref

/-- The back prefix the source computes:
`len(path.split("/")[1:-1]) + 1` copies of `..` joined with `/`. -/
def backPath (p : String) : String :=
  let frags : List String := ((pySplit '/' p).drop 1).dropLast
  let back : List String := List.replicate (frags.length + 1) ".."
  if back.length > 0 then String.intercalate "/" back else "."

lemma pySplitL_ne_nil (sep : Char) (l : List Char) : pySplitL sep l ≠ [] := by
  induction l with
  | nil => simp [pySplitL]
  | cons c rest ih =>
    simp only [pySplitL]
    split
    · simp
    · split
      · simp
      · simp

lemma pySplit_ne_nil (sep : Char) (s : String) : pySplit sep s ≠ [] := by
  simp [pySplit, pySplitL_ne_nil]

lemma pySplit_getLast? (s : String) :
    (pySplit '/' s).getLast? = some (filenameOf s) := by
  cases hq : (pySplit '/' s).getLast? with
  | none => exact absurd (List.getLast?_eq_none_iff.mp hq) (pySplit_ne_nil '/' s)
  | some a =>
    have : filenameOf s = a := by
      simp [filenameOf, List.getLastD_eq_getLast?, hq]
    rw [this]

/-- With a parent, `_create_root_link` produces the back path of the node
path followed by the filename of the first root href of the parent. -/
lemma StacCatalog.create_root_link_some (node : StacCatalog) (p : StacCatalog) (r : String)
    (h : ((p.links.filter (fun l => l.rel == RelationTypes.ROOT)).map Link.href).head? =
      some r) :
    node.create_root_link (some p) =
      .ok { href := backPath node.path ++ "/" ++ filenameOf r, rel := RelationTypes.ROOT,
            type := some MediaType.STAC_CATALOG, title := none } := by
  simp only [StacCatalog.create_root_link, h, pySplit_getLast?, backPath]

/-- Same computation for `StacItem._create_root_link`. -/
lemma StacItem.create_root_link_eq (node : StacItem) (p : StacCatalog) (r : String)
    (h : ((p.links.filter (fun l => l.rel == RelationTypes.ROOT)).map Link.href).head? =
      some r) :
    node.create_root_link p =
      .ok { href := backPath node.path ++ "/" ++ filenameOf r, rel := RelationTypes.ROOT,
            type := some MediaType.STAC_CATALOG, title := none } := by
  simp only [StacItem.create_root_link, h, pySplit_getLast?, backPath]

/-- On a well-formed normalized path (leading `/`, at least one segment,
no empty segment) the source back path is one `..` per segment. -/
lemma backPath_eq_claim (p : String) (l : List String)
    (hs : pySplit '/' p = "" :: l) (hne : l ≠ []) (hnm : "" ∉ l) :
    backPath p = String.intercalate "/" (List.replicate (pathSegments p).length "..") := by
  have hfilter : pathSegments p = l := by
    simp only [pathSegments, hs, List.filter_cons]
    have h0 : (("" : String) != "") = false := by decide
    rw [h0]
    simp only [Bool.false_eq_true, if_false]
    exact List.filter_eq_self.mpr (fun a ha => by
      have : a ≠ "" := fun hcontra => hnm (hcontra ▸ ha)
      simpa using this)
  have hlen : l.length - 1 + 1 = l.length := by
    have : 0 < l.length := List.length_pos.mpr hne
    omega
  simp only [backPath, hs, List.drop_succ_cons, List.drop_zero, List.length_dropLast,
    List.length_replicate, hlen, hfilter]
  have hpos : 0 < l.length := List.length_pos.mpr hne
  rw [if_pos hpos]

/-- Successful root construction of a catalog (no parent): the node gets
exactly a root link `./<id>.json` and a self link `<id>.json`. -/
lemma StacCatalog.init_none_ok (directory id path description stac_version : String)
    (kw_title : Option String) (dir : String)
    (h_dir : Utils.fix_directory directory = .ok dir)
    (h_path : Utils.fix_directory path = .ok "") :
    StacCatalog.init directory id path description stac_version kw_title none =
      .ok ({ type := "Catalog", directory := dir, id := id, path := "",
             description := description, stac_version := stac_version,
             links := [
               { href := "." ++ "/" ++ (id ++ ".json"), rel := RelationTypes.ROOT,
                 type := some MediaType.STAC_CATALOG, title := none },
               { href := id ++ ".json", rel := RelationTypes.SELF,
                 type := some MediaType.STAC_CATALOG,
                 title := some (kw_title.getD id) }],
             stac_extensions := [], stac_extensions_properties := [],
             title := kw_title }, none) := by
  simp only [StacCatalog.init, h_dir, h_path, StacCatalog.validate_parent,
    StacCatalog.create_links, StacCatalog.create_root_link, StacCatalog.create_self_link,
    ne_eq, not_true_eq_false, if_false, List.nil_append]
  rfl

/-- Successful construction of a catalog under a parent: the exact node
state and the exact updated parent link list, in terms of the normalized
path `pth`, the first root href `r` of the parent and the parent media
type `mt` (determined by the parent `type` string). -/
lemma StacCatalog.init_some_ok (directory id path description stac_version : String)
    (kw_title : Option String) (parent : StacCatalog) (dir pth r : String) (mt : MediaType)
    (h_dir : Utils.fix_directory directory = .ok dir)
    (h_path : Utils.fix_directory path = .ok pth)
    (h_root : ((parent.links.filter (fun l => l.rel == RelationTypes.ROOT)).map Link.href).head?
      = some r)
    (h_pt : (parent.type = "Catalog" ∧ mt = MediaType.STAC_CATALOG) ∨
            (parent.type = "Collection" ∧ mt = MediaType.STAC_COLLECTION)) :
    StacCatalog.init directory id path description stac_version kw_title (some parent) =
      .ok ({ type := "Catalog", directory := dir, id := id, path := pth,
             description := description, stac_version := stac_version,
             links := [
               { href := backPath pth ++ "/" ++ filenameOf r, rel := RelationTypes.ROOT,
                 type := some MediaType.STAC_CATALOG, title := none },
               { href := id ++ ".json", rel := RelationTypes.SELF,
                 type := some MediaType.STAC_CATALOG,
                 title := some (kw_title.getD id) },
               { href := "../" ++ parent.id ++ ".json", rel := RelationTypes.PARENT,
                 type := some mt, title := parent.title }],
             stac_extensions := [], stac_extensions_properties := [],
             title := kw_title },
           some (parent.links ++ [
             { href := "." ++ pyReplace pth parent.path "" ++ "/" ++ id ++ ".json",
               rel := RelationTypes.CHILD, type := some MediaType.STAC_CATALOG,
               title := kw_title }])) := by
  have hroot := StacCatalog.create_root_link_some
    { type := "Catalog", directory := dir, id := id, path := pth,
      description := description, stac_version := stac_version,
      links := [], stac_extensions := [], stac_extensions_properties := [],
      title := kw_title } parent r h_root
  simp only [StacCatalog.init, h_dir, h_path, StacCatalog.validate_parent,
    StacCatalog.create_links, hroot, StacCatalog.create_self_link,
    StacCatalog.create_child_link, StacCatalog.create_parent_link, List.nil_append]
  rcases h_pt with ⟨hp, hm⟩ | ⟨hp, hm⟩ <;>
    simp only [hp, hm] <;> rfl

/-- Successful construction of a collection under a parent.  The links
are created while the node `type` is still `"Catalog"`, so the self and
child links are stamped with `MediaType.STAC_CATALOG` (which is also the
`STAC_COLLECTION` alias); the final node `type` is `"Collection"`. -/
lemma collection_init_ok (directory id path description license : String)
    (extent : Json) (stac_version : String)
    (kw_title : Option String) (parent : StacCatalog) (dir pth r : String) (mt : MediaType)
    (h_dir : Utils.fix_directory directory = .ok dir)
    (h_path : Utils.fix_directory path = .ok pth)
    (h_root : ((parent.links.filter (fun l => l.rel == RelationTypes.ROOT)).map Link.href).head?
      = some r)
    (h_pt : (parent.type = "Catalog" ∧ mt = MediaType.STAC_CATALOG) ∨
            (parent.type = "Collection" ∧ mt = MediaType.STAC_COLLECTION)) :
    StacCollection.init directory id path description license extent stac_version kw_title
        (some parent) =
      .ok ({ base := { type := "Collection", directory := dir, id := id, path := pth,
                       description := description, stac_version := stac_version,
                       links := [
                         { href := backPath pth ++ "/" ++ filenameOf r,
                           rel := RelationTypes.ROOT,
                           type := some MediaType.STAC_CATALOG, title := none },
                         { href := id ++ ".json", rel := RelationTypes.SELF,
                           type := some MediaType.STAC_CATALOG,
                           title := some (kw_title.getD id) },
                         { href := "../" ++ parent.id ++ ".json", rel := RelationTypes.PARENT,
                           type := some mt, title := parent.title }],
                       stac_extensions := [], stac_extensions_properties := [],
                       title := kw_title },
             license := license, extent := extent, keywords := [], providers := [],
             summaries := none, assets := none },
           some (parent.links ++ [
             { href := "." ++ pyReplace pth parent.path "" ++ "/" ++ id ++ ".json",
               rel := RelationTypes.CHILD, type := some MediaType.STAC_CATALOG,
               title := kw_title }])) := by
  have hroot := StacCatalog.create_root_link_some
    { type := "Catalog", directory := dir, id := id, path := pth,
      description := description, stac_version := stac_version,
      links := [], stac_extensions := [], stac_extensions_properties := [],
      title := kw_title } parent r h_root
  simp only [StacCollection.init, h_dir, h_path, StacCollection.validate_parent,
    StacCatalog.create_links, hroot, StacCatalog.create_self_link,
    StacCatalog.create_child_link, StacCatalog.create_parent_link, List.nil_append]
  rcases h_pt with ⟨hp, hm⟩ | ⟨hp, hm⟩ <;>
    simp only [hp, hm] <;> rfl

/-- Successful construction of an item under a parent. -/
lemma item_init_ok (directory id path : String) (geometry : Option GeometryVal)
    (properties : Properties) (assets : List (String × AssetObject)) (stac_version : String)
    (parent : StacCatalog) (dir pth r : String) (mt : MediaType)
    (h_dir : Utils.fix_directory directory = .ok dir)
    (h_path : Utils.fix_directory path = .ok pth)
    (h_root : ((parent.links.filter (fun l => l.rel == RelationTypes.ROOT)).map Link.href).head?
      = some r)
    (h_pt : (parent.type = "Catalog" ∧ mt = MediaType.STAC_CATALOG) ∨
            (parent.type = "Collection" ∧ mt = MediaType.STAC_COLLECTION)) :
    StacItem.init directory id path geometry properties assets stac_version (some parent) =
      .ok ({ type := "Feature", directory := dir, id := id, path := pth,
             geometry := geometry,
             bbox := match geometry with | some g => some [g.bounds] | none => none,
             stac_version := stac_version, stac_extensions := [],
             properties := properties,
             links := [
               { href := backPath pth ++ "/" ++ filenameOf r, rel := RelationTypes.ROOT,
                 type := some MediaType.STAC_CATALOG, title := none },
               { href := id ++ ".json", rel := RelationTypes.SELF,
                 type := some MediaType.STAC_ITEM, title := some id },
               { href := "../" ++ parent.id ++ ".json", rel := RelationTypes.PARENT,
                 type := some mt, title := parent.title }],
             assets := assets, collection := none },
           parent.links ++ [
             { href := "." ++ pyReplace pth parent.path "" ++ "/" ++ id ++ ".json",
               rel := RelationTypes.ITEM, type := some MediaType.STAC_ITEM,
               title := some id }]) := by
  have hroot := StacItem.create_root_link_eq
    { type := "Feature", directory := dir, id := id, path := pth,
      geometry := geometry,
      bbox := match geometry with | some g => some [g.bounds] | none => none,
      stac_version := stac_version, stac_extensions := [], properties := properties,
      links := [], assets := assets, collection := none } parent r h_root
  simp only [StacItem.init, h_dir, h_path, StacItem.validate_parent,
    StacItem.create_links, hroot, StacItem.create_self_link,
    StacItem.create_child_link, StacItem.create_parent_link, List.nil_append]
  rcases h_pt with ⟨hp, hm⟩ | ⟨hp, hm⟩ <;>
    simp only [hp, hm] <;> rfl

/-! ## Generic lemmas about the list and dict helpers -/

lemma updateFirst_find? (p : Link → Bool) (f : Link → Link)
    (hpf : ∀ l, p l = true → p (f l) = true) :
    ∀ (ls : List Link) (l0 : Link), ls.find? p = some l0 →
      (updateFirst ls p f).find? p = some (f l0) := by
  intro ls
  induction ls with
  | nil => intro l0 h; simp [List.find?] at h
  | cons a t ih =>
    intro l0 h
    by_cases hpa : p a = true
    · rw [List.find?_cons_of_pos _ hpa] at h
      cases h
      rw [updateFirst, if_pos hpa]
      exact List.find?_cons_of_pos _ (hpf _ hpa)
    · rw [List.find?_cons_of_neg _ hpa] at h
      rw [updateFirst, if_neg hpa]
      rw [List.find?_cons_of_neg _ hpa]
      exact ih l0 h

lemma find?_append_last (p : Link → Bool) (ls : List Link) (c : Link)
    (hc : p c = true) : ∃ l0, (ls ++ [c]).find? p = some l0 := by
  rw [List.find?_append]
  cases h : ls.find? p with
  | some y => exact ⟨y, rfl⟩
  | none => exact ⟨c, by simp [List.find?_cons_of_pos _ hc]⟩

lemma dictGet_dictSet_same (d : List (String × Json)) (k : String) (v : Json) :
    dictGet (dictSet d k v) k = some v := by
  induction d with
  | nil => simp [dictSet, dictGet]
  | cons kv rest ih =>
    obtain ⟨k', v'⟩ := kv
    by_cases h : k' = k
    · simp [dictSet, if_pos h, dictGet]
    · simp only [dictSet, if_neg h]
      simpa [dictGet, List.find?_cons_of_neg, h] using ih

lemma dictGet_dictSet_ne (d : List (String × Json)) (k : String) (v : Json)
    (k2 : String) (h : k2 ≠ k) :
    dictGet (dictSet d k v) k2 = dictGet d k2 := by
  have hkk2 : (k == k2) = false := by simpa using fun hh => h hh.symm
  induction d with
  | nil => simp [dictSet, dictGet, List.find?, hkk2]
  | cons kv rest ih =>
    obtain ⟨k', v'⟩ := kv
    by_cases hk : k' = k
    · subst hk
      simp [dictSet, dictGet, List.find?, hkk2]
    · simp only [dictSet, if_neg hk]
      by_cases hk2 : k' = k2
      · simp [dictGet, List.find?, hk2]
      · have hk2b : (k' == k2) = false := by simpa using hk2
        simp only [dictGet, List.find?, hk2b] at ih ⊢
        exact ih

lemma mem_dictKeys_dictSet (d : List (String × Json)) (k : String) (v : Json)
    (k2 : String) :
    k2 ∈ dictKeys (dictSet d k v) ↔ k2 ∈ dictKeys d ∨ k2 = k := by
  induction d with
  | nil => simp [dictSet, dictKeys]
  | cons kv rest ih =>
    obtain ⟨k', v'⟩ := kv
    by_cases h : k' = k
    · subst h
      simp [dictSet, dictKeys]
      tauto
    · simp only [dictSet, if_neg h, dictKeys, List.map_cons, List.mem_cons] at ih ⊢
      rw [ih]
      tauto

lemma dictGet_dictUpdate_not_mem (e : List (String × Json)) :
    ∀ (d : List (String × Json)) (k : String), k ∉ dictKeys e →
      dictGet (dictUpdate d e) k = dictGet d k := by
  induction e with
  | nil => intro d k _; rfl
  | cons kv rest ih =>
    intro d k hk
    simp only [dictKeys, List.map_cons, List.mem_cons] at hk
    push_neg at hk
    have h1 : dictUpdate d (kv :: rest) = dictUpdate (dictSet d kv.1 kv.2) rest := rfl
    rw [h1, ih _ k (by simpa [dictKeys] using hk.2), dictGet_dictSet_ne _ _ _ _ hk.1]

lemma dictGet_dictUpdate_of_get (e : List (String × Json)) :
    ∀ (d : List (String × Json)) (k : String) (v : Json),
      (dictKeys e).Nodup → dictGet e k = some v →
      dictGet (dictUpdate d e) k = some v := by
  induction e with
  | nil => intro d k v _ h; simp [dictGet, List.find?] at h
  | cons kv rest ih =>
    intro d k v hnd h
    obtain ⟨k', v'⟩ := kv
    simp only [dictKeys, List.map_cons, List.nodup_cons] at hnd
    have h1 : dictUpdate d ((k', v') :: rest) = dictUpdate (dictSet d k' v') rest := rfl
    rw [h1]
    by_cases hk : k' = k
    · subst hk
      have hv : v' = v := by
        simpa [dictGet, List.find?] using h
      subst hv
      rw [dictGet_dictUpdate_not_mem rest _ _ (by simpa [dictKeys] using hnd.1)]
      exact dictGet_dictSet_same d k' v'
    · have h2 : dictGet ((k', v') :: rest) k = dictGet rest k := by
        simp [dictGet, List.find?, show (k' == k) = false by simpa using hk]
      rw [h2] at h
      exact ih _ k v hnd.2 h

lemma mem_dictKeys_dictUpdate (e : List (String × Json)) :
    ∀ (d : List (String × Json)) (k : String),
      k ∈ dictKeys (dictUpdate d e) ↔ k ∈ dictKeys d ∨ k ∈ dictKeys e := by
  induction e with
  | nil => intro d k; simp [dictUpdate, dictKeys]
  | cons kv rest ih =>
    intro d k
    have h1 : dictUpdate d (kv :: rest) = dictUpdate (dictSet d kv.1 kv.2) rest := rfl
    rw [h1, ih]
    rw [mem_dictKeys_dictSet]
    simp [dictKeys]
    tauto

lemma nodup_dictKeys_dictSet (d : List (String × Json)) (k : String) (v : Json)
    (h : (dictKeys d).Nodup) : (dictKeys (dictSet d k v)).Nodup := by
  induction d with
  | nil => simp [dictSet, dictKeys]
  | cons kv rest ih =>
    obtain ⟨k', v'⟩ := kv
    simp only [dictKeys, List.map_cons, List.nodup_cons] at h
    by_cases hk : k' = k
    · subst hk
      simpa [dictSet, dictKeys] using h
    · simp only [dictSet, if_neg hk, dictKeys, List.map_cons, List.nodup_cons]
      refine ⟨fun hmem => ?_, ih h.2⟩
      rw [show (List.map (fun kv => kv.1) (dictSet rest k v) : List String)
            = dictKeys (dictSet rest k v) from rfl] at hmem
      rcases (mem_dictKeys_dictSet rest k v k').mp hmem with hin | heq
      · exact h.1 hin
      · exact hk heq

lemma nodup_dictKeys_dictUpdate (e : List (String × Json)) :
    ∀ (d : List (String × Json)), (dictKeys d).Nodup →
      (dictKeys (dictUpdate d e)).Nodup := by
  induction e with
  | nil => intro d h; exact h
  | cons kv rest ih =>
    intro d h
    have h1 : dictUpdate d (kv :: rest) = dictUpdate (dictSet d kv.1 kv.2) rest := rfl
    rw [h1]
    exact ih _ (nodup_dictKeys_dictSet d kv.1 kv.2 h)

/-! ## Concrete states used by the witnesses and counterexamples

`demoRoot` is the root catalog of the test scenario of the repository
(`id="first_cat"`, `path="/"`, root directory `/tmp`). -/

/-- The root catalog produced by
`StacCatalog.init "/tmp" "first_cat" "/" "My first catalog" "1.0.0" none none`. -/
def demoRoot : StacCatalog :=
  { type := "Catalog", directory := "/tmp", id := "first_cat", path := "",
    description := "My first catalog", stac_version := "1.0.0",
    links := [
      { href := "./first_cat.json", rel := RelationTypes.ROOT,
        type := some MediaType.STAC_CATALOG, title := none },
      { href := "first_cat.json", rel := RelationTypes.SELF,
        type := some MediaType.STAC_CATALOG, title := some "first_cat" }],
    stac_extensions := [], stac_extensions_properties := [], title := none }

lemma demoRoot_init :
    StacCatalog.init "/tmp" "first_cat" "/" "My first catalog" "1.0.0" none none =
      .ok (demoRoot, none) := rfl

example :
    (StacCollection.init "/tmp" "first_coll" "/first_cat/first_coll" "My first collection"
        "Apple-DSL" Json.null "1.0.0" none (some demoRoot)).map
      (fun r => (r.1.base.links.map Link.href, r.1.base.type,
                 (r.2.getD []).map Link.href)) =
    .ok (["../../first_cat.json", "first_coll.json", "../first_cat.json"], "Collection",
         ["./first_cat.json", "first_cat.json", "./first_cat/first_coll/first_coll.json"]) := by
  rfl

example :
    (StacItem.init "/tmp" "1st_item" "/first_cat" none (Properties.init none) [] "1.0.0"
        (some demoRoot)).map
      (fun r => (r.1.links.map Link.href, r.2.map (fun l => (l.href, l.rel, l.title)))) =
    .ok (["../first_cat.json", "1st_item.json", "../first_cat.json"],
         [("./first_cat.json", RelationTypes.ROOT, none),
          ("first_cat.json", RelationTypes.SELF, some "first_cat"),
          ("./first_cat/1st_item.json", RelationTypes.ITEM, some "1st_item")]) := by
  rfl

/-- `Utils.fix_directory` can only fail with an `IndexError`. -/
lemma fix_directory_error_eq (d : String) (e : PyErr)
    (h : Utils.fix_directory d = .error e) : e = PyErr.indexError := by
  unfold Utils.fix_directory at h
  split at h
  · injection h with h1; exact h1.symm
  · split at h <;> exact Except.noConfusion h

/-- C9: constructing any node, or the library, with an empty `path` or
`directory` argument fails with the unguarded `IndexError` of the
trailing-separator normalization (which indexes the last character and is
therefore defined only for non-empty strings), not with an
invalid-configuration `ValueError`. -/
theorem c9_empty_argument_raises_index_error :
    (Utils.fix_directory "" = .error PyErr.indexError) ∧
    (∀ (id path description stac_version : String) (t : Option String)
        (parent : Option StacCatalog),
      StacCatalog.init "" id path description stac_version t parent =
        .error PyErr.indexError) ∧
    (∀ (directory id description stac_version : String) (t : Option String)
        (parent : Option StacCatalog),
      StacCatalog.init directory id "" description stac_version t parent =
        .error PyErr.indexError) ∧
    (∀ (id path description license : String) (extent : Json) (stac_version : String)
        (t : Option String) (parent : Option StacCatalog),
      StacCollection.init "" id path description license extent stac_version t parent =
        .error PyErr.indexError) ∧
    (∀ (directory id description license : String) (extent : Json) (stac_version : String)
        (t : Option String) (parent : Option StacCatalog),
      StacCollection.init directory id "" description license extent stac_version t parent =
        .error PyErr.indexError) ∧
    (∀ (id path : String) (geometry : Option GeometryVal) (properties : Properties)
        (assets : List (String × AssetObject)) (stac_version : String)
        (parent : Option StacCatalog),
      StacItem.init "" id path geometry properties assets stac_version parent =
        .error PyErr.indexError) ∧
    (∀ (directory id : String) (geometry : Option GeometryVal) (properties : Properties)
        (assets : List (String × AssetObject)) (stac_version : String)
        (parent : Option StacCatalog),
      StacItem.init directory id "" geometry properties assets stac_version parent =
        .error PyErr.indexError) ∧
    (∀ (α : Type) (path_to_conf : String),
      PystacLib.init α path_to_conf "" = .error PyErr.indexError) := by
  refine ⟨rfl, fun _ _ _ _ _ _ => rfl, ?_, fun _ _ _ _ _ _ _ _ => rfl, ?_,
    fun _ _ _ _ _ _ _ => rfl, ?_, fun _ _ => rfl⟩
  · intro directory id description stac_version t parent
    cases hd : Utils.fix_directory directory with
    | error e =>
      have he := fix_directory_error_eq _ _ hd
      subst he
      simp [StacCatalog.init, hd]
    | ok dir =>
      simp only [StacCatalog.init, hd]
      rfl
  · intro directory id description license extent stac_version t parent
    cases hd : Utils.fix_directory directory with
    | error e =>
      have he := fix_directory_error_eq _ _ hd
      subst he
      simp [StacCollection.init, hd]
    | ok dir =>
      simp only [StacCollection.init, hd]
      rfl
  · intro directory id geometry properties assets stac_version parent
    cases hd : Utils.fix_directory directory with
    | error e =>
      have he := fix_directory_error_eq _ _ hd
      subst he
      simp [StacItem.init, hd]
    | ok dir =>
      simp only [StacItem.init, hd]
      rfl

/-- C6: with both raw arguments non-empty (so that the normalization is
defined), a catalog constructed without a parent and with a non-empty
normalized path, and a collection or an item constructed without a
parent, each raise the invalid-configuration `ValueError` of their
`_validate_parent`, and no node is produced. -/
theorem c6_missing_parent_value_error :
    (∀ (directory id path description stac_version : String) (t : Option String)
        (dir pth : String),
      Utils.fix_directory directory = .ok dir → Utils.fix_directory path = .ok pth →
      pth ≠ "" →
      StacCatalog.init directory id path description stac_version t none =
        .error (PyErr.valueError "When no parent is set, path must be set to /")) ∧
    (∀ (directory id path description license : String) (extent : Json)
        (stac_version : String) (t : Option String) (dir pth : String),
      Utils.fix_directory directory = .ok dir → Utils.fix_directory path = .ok pth →
      StacCollection.init directory id path description license extent stac_version t none =
        .error (PyErr.valueError "parent cannot be None in a collection")) ∧
    (∀ (directory id path : String) (geometry : Option GeometryVal)
        (properties : Properties) (assets : List (String × AssetObject))
        (stac_version : String) (dir pth : String),
      Utils.fix_directory directory = .ok dir → Utils.fix_directory path = .ok pth →
      StacItem.init directory id path geometry properties assets stac_version none =
        .error (PyErr.valueError "parent cannot be None for an item")) := by
  refine ⟨?_, ?_, ?_⟩
  · intro directory id path description stac_version t dir pth hdir hpath hne
    simp [StacCatalog.init, hdir, hpath, StacCatalog.validate_parent, hne]
  · intro directory id path description license extent stac_version t dir pth hdir hpath
    simp [StacCollection.init, hdir, hpath, StacCollection.validate_parent]
  · intro directory id path geometry properties assets stac_version dir pth hdir hpath
    simp [StacItem.init, hdir, hpath, StacItem.validate_parent]

/-- Witness for C6 at concrete inputs: a catalog with no parent and path
`/first_cat`, a collection and an item with no parent. -/
theorem c6_missing_parent_value_error_witness :
    StacCatalog.init "/tmp" "first_cat" "/first_cat" "d" "1.0.0" none none =
      .error (PyErr.valueError "When no parent is set, path must be set to /") ∧
    StacCollection.init "/tmp" "first_coll" "/first_cat/first_coll" "d" "Apple-DSL"
        Json.null "1.0.0" none none =
      .error (PyErr.valueError "parent cannot be None in a collection") ∧
    StacItem.init "/tmp" "1st_item" "/first_cat" none (Properties.init none) [] "1.0.0"
        none =
      .error (PyErr.valueError "parent cannot be None for an item") :=
  ⟨c6_missing_parent_value_error.1 "/tmp" "first_cat" "/first_cat" "d" "1.0.0" none
      "/tmp" "/first_cat" rfl rfl (by decide),
   c6_missing_parent_value_error.2.1 "/tmp" "first_coll" "/first_cat/first_coll" "d"
      "Apple-DSL" Json.null "1.0.0" none "/tmp" "/first_cat/first_coll" rfl rfl,
   c6_missing_parent_value_error.2.2 "/tmp" "1st_item" "/first_cat" none
      (Properties.init none) [] "1.0.0" "/tmp" "/first_cat" rfl rfl⟩

/-- Registration leaves the observers in insertion order. -/
lemma observers_foldl_subscribe {α : Type} (xs : List α) :
    ∀ (lib : PystacLib α),
      (xs.foldl PystacLib.subscribe lib).observable.observers =
        lib.observable.observers ++ xs := by
  induction xs with
  | nil => intro lib; simp
  | cons x t ih =>
    intro lib
    simp only [List.foldl_cons, ih, PystacLib.subscribe, Observable.subscribe,
      List.append_assoc, List.singleton_append]

/-- C8: after any sequence of registrations on a fresh library, a `save`
or `tree` broadcast delivers the event to the registered nodes exactly in
registration order, and for any test on nodes the number of deliveries to
matching nodes equals the number of matching registrations (so a node
registered once receives the event exactly once). -/
theorem c8_broadcast_once_in_registration_order :
    ∀ (α : Type) (lib0 : PystacLib α) (xs : List α),
      lib0.observable.observers = [] →
      (xs.foldl PystacLib.subscribe lib0).save = xs.map (fun x => (x, "save")) ∧
      (xs.foldl PystacLib.subscribe lib0).tree = xs.map (fun x => (x, "tree")) ∧
      (∀ f : α → Bool,
        ((xs.foldl PystacLib.subscribe lib0).save.countP (fun p => f p.1) = xs.countP f ∧
         (xs.foldl PystacLib.subscribe lib0).tree.countP (fun p => f p.1) = xs.countP f)) := by
  intro α lib0 xs h0
  have hobs := observers_foldl_subscribe xs lib0
  rw [h0, List.nil_append] at hobs
  refine ⟨?_, ?_, ?_⟩
  · simp [PystacLib.save, Observable.notify_observers, hobs]
  · simp [PystacLib.tree, Observable.notify_observers, hobs]
  · intro f
    constructor
    · simp only [PystacLib.save, Observable.notify_observers, hobs, List.countP_map]
      rfl
    · simp only [PystacLib.tree, Observable.notify_observers, hobs, List.countP_map]
      rfl

/-- Witness for C8: three registered nodes, broadcast in registration
order, each receiving `save` exactly once. -/
theorem c8_broadcast_once_in_registration_order_witness :
    ∃ lib0 : PystacLib String,
      PystacLib.init String "conf" "/tmp" = .ok lib0 ∧
      lib0.observable.observers = [] ∧
      (["first_cat", "first_coll", "1st_item"].foldl PystacLib.subscribe lib0).save =
        [("first_cat", "save"), ("first_coll", "save"), ("1st_item", "save")] ∧
      (["first_cat", "first_coll", "1st_item"].foldl PystacLib.subscribe lib0).save.countP
          (fun p => p.1 == "first_coll") = 1 := by
  refine ⟨{ observable := Observable.new, directory := "/tmp" }, rfl, rfl, ?_, ?_⟩
  · have h := (c8_broadcast_once_in_registration_order String
      { observable := Observable.new, directory := "/tmp" }
      ["first_cat", "first_coll", "1st_item"] rfl).1
    simpa using h
  · have h := ((c8_broadcast_once_in_registration_order String
      { observable := Observable.new, directory := "/tmp" }
      ["first_cat", "first_coll", "1st_item"] rfl).2.2 (fun s => s == "first_coll")).1
    rw [h]
    decide

/-- C10: the `Properties` projection binds `datetime` to the `datetime`
attribute (so an entry of that name smuggled into `other_properties`
never survives), leaves every other key as in `other_properties` (the
projection reads a copy and never mutates the object — immediate in this
pure embedding), and the `other_properties` setter merges a dict into the
existing mapping (new keys win, absent keys survive) while `None` clears
the mapping. -/
theorem c10_properties_to_dict_and_setter :
    (∀ p : Properties, dictGet p.to_dict "datetime" = some p.datetimeJson) ∧
    (∀ (p : Properties) (k : String), k ≠ "datetime" →
      dictGet p.to_dict k = dictGet p.other_properties k) ∧
    (∀ (p : Properties) (d : List (String × Json)) (k : String) (v : Json),
      (dictKeys d).Nodup → dictGet d k = some v →
      dictGet (p.set_other_properties (some d)).other_properties k = some v) ∧
    (∀ (p : Properties) (d : List (String × Json)) (k : String), k ∉ dictKeys d →
      dictGet (p.set_other_properties (some d)).other_properties k =
        dictGet p.other_properties k) ∧
    (∀ p : Properties, (p.set_other_properties none).other_properties = []) := by
  refine ⟨?_, ?_, ?_, ?_, ?_⟩
  · intro p
    exact dictGet_dictSet_same p.other_properties "datetime" p.datetimeJson
  · intro p k hk
    exact dictGet_dictSet_ne p.other_properties "datetime" p.datetimeJson k hk
  · intro p d k v hnd hget
    exact dictGet_dictUpdate_of_get d p.other_properties k v hnd hget
  · intro p d k hk
    exact dictGet_dictUpdate_not_mem d p.other_properties k hk
  · intro p
    rfl

/-- Witness for C10 on a concrete `Properties` with a smuggled
`datetime` entry and a merge. -/
theorem c10_properties_to_dict_and_setter_witness :
    dictGet
      (Properties.to_dict
        { datetime := some "2021-01-01T00:00:00Z",
          other_properties := [("datetime", Json.str "SMUGGLED"), ("a", Json.int 1)] })
      "datetime" = some (Json.str "2021-01-01T00:00:00Z") ∧
    dictGet
      (Properties.to_dict
        { datetime := some "2021-01-01T00:00:00Z",
          other_properties := [("datetime", Json.str "SMUGGLED"), ("a", Json.int 1)] })
      "a" =
      dictGet [("datetime", Json.str "SMUGGLED"), ("a", Json.int 1)] "a" ∧
    dictGet
      (Properties.set_other_properties
        { datetime := none, other_properties := [("a", Json.int 1)] }
        (some [("b", Json.int 2)])).other_properties "b" = some (Json.int 2) ∧
    dictGet
      (Properties.set_other_properties
        { datetime := none, other_properties := [("a", Json.int 1)] }
        (some [("b", Json.int 2)])).other_properties "a" =
      dictGet [("a", Json.int 1)] "a" ∧
    (Properties.set_other_properties
        { datetime := none, other_properties := [("a", Json.int 1)] }
        none).other_properties = [] :=
  ⟨c10_properties_to_dict_and_setter.1 _,
   c10_properties_to_dict_and_setter.2.1 _ "a" (by decide),
   c10_properties_to_dict_and_setter.2.2.1 _ [("b", Json.int 2)] "b" (Json.int 2)
     (by simp [dictKeys]) rfl,
   c10_properties_to_dict_and_setter.2.2.2.1 _ [("b", Json.int 2)] "a"
     (by simp [dictKeys]),
   c10_properties_to_dict_and_setter.2.2.2.2 _⟩

/-- C1 (amended): for a node constructed with a parent whose normalized
path is well formed (a leading `/` followed by at least one non-empty
segment and no empty segment), the computed root link href is `N` copies
of `..` joined with `/` followed by `/` and the filename of the parent
root link href, where `N` is the number of path segments of the node
path; a node constructed without a parent gets root href `./<id>.json`.
(The original universal claim fails for a node constructed with a parent
and an empty normalized path, see the counterexample.) -/
theorem c1_root_link_href :
    (∀ (directory id path description stac_version : String) (t : Option String)
        (dir : String),
      Utils.fix_directory directory = .ok dir → Utils.fix_directory path = .ok "" →
      ∃ n x, StacCatalog.init directory id path description stac_version t none =
          .ok (n, x) ∧
        ((n.links.filter (fun l => l.rel == RelationTypes.ROOT)).map Link.href).head? =
          some ("./" ++ id ++ ".json")) ∧
    (∀ (directory id path description stac_version : String) (t : Option String)
        (parent : StacCatalog) (dir pth r : String) (mt : MediaType) (l : List String),
      Utils.fix_directory directory = .ok dir → Utils.fix_directory path = .ok pth →
      ((parent.links.filter (fun lk => lk.rel == RelationTypes.ROOT)).map Link.href).head?
        = some r →
      (parent.type = "Catalog" ∧ mt = MediaType.STAC_CATALOG) ∨
        (parent.type = "Collection" ∧ mt = MediaType.STAC_COLLECTION) →
      pySplit '/' pth = "" :: l → l ≠ [] → "" ∉ l →
      ∃ n x, StacCatalog.init directory id path description stac_version t (some parent) =
          .ok (n, x) ∧
        ((n.links.filter (fun lk => lk.rel == RelationTypes.ROOT)).map Link.href).head? =
          some (claimRootHref pth r)) ∧
    (∀ (directory id path description license : String) (extent : Json)
        (stac_version : String) (t : Option String)
        (parent : StacCatalog) (dir pth r : String) (mt : MediaType) (l : List String),
      Utils.fix_directory directory = .ok dir → Utils.fix_directory path = .ok pth →
      ((parent.links.filter (fun lk => lk.rel == RelationTypes.ROOT)).map Link.href).head?
        = some r →
      (parent.type = "Catalog" ∧ mt = MediaType.STAC_CATALOG) ∨
        (parent.type = "Collection" ∧ mt = MediaType.STAC_COLLECTION) →
      pySplit '/' pth = "" :: l → l ≠ [] → "" ∉ l →
      ∃ n x, StacCollection.init directory id path description license extent
          stac_version t (some parent) = .ok (n, x) ∧
        ((n.base.links.filter (fun lk => lk.rel == RelationTypes.ROOT)).map Link.href).head?
          = some (claimRootHref pth r)) ∧
    (∀ (directory id path : String) (geometry : Option GeometryVal)
        (properties : Properties) (assets : List (String × AssetObject))
        (stac_version : String)
        (parent : StacCatalog) (dir pth r : String) (mt : MediaType) (l : List String),
      Utils.fix_directory directory = .ok dir → Utils.fix_directory path = .ok pth →
      ((parent.links.filter (fun lk => lk.rel == RelationTypes.ROOT)).map Link.href).head?
        = some r →
      (parent.type = "Catalog" ∧ mt = MediaType.STAC_CATALOG) ∨
        (parent.type = "Collection" ∧ mt = MediaType.STAC_COLLECTION) →
      pySplit '/' pth = "" :: l → l ≠ [] → "" ∉ l →
      ∃ n x, StacItem.init directory id path geometry properties assets stac_version
          (some parent) = .ok (n, x) ∧
        ((n.links.filter (fun lk => lk.rel == RelationTypes.ROOT)).map Link.href).head? =
          some (claimRootHref pth r)) := by
  refine ⟨?_, ?_, ?_, ?_⟩
  · intro directory id path description stac_version t dir hdir hpath
    refine ⟨_, _, StacCatalog.init_none_ok directory id path description stac_version t dir
      hdir hpath, ?_⟩
    simp only [List.filter_cons, List.filter_nil, beq_self_eq_true, if_true,
      List.map_cons, List.head?_cons]
    exact congrArg some
      (by rw [show ("." ++ "/" : String) = "./" from rfl, ← String.append_assoc])
  · intro directory id path description stac_version t parent dir pth r mt l
      hdir hpath hroot hpt hsplit hne hnm
    refine ⟨_, _, StacCatalog.init_some_ok directory id path description stac_version t
      parent dir pth r mt hdir hpath hroot hpt, ?_⟩
    have hbp := backPath_eq_claim pth l hsplit hne hnm
    simp [claimRootHref, ← hbp]
  · intro directory id path description license extent stac_version t parent dir pth r mt l
      hdir hpath hroot hpt hsplit hne hnm
    refine ⟨_, _, collection_init_ok directory id path description license extent
      stac_version t parent dir pth r mt hdir hpath hroot hpt, ?_⟩
    have hbp := backPath_eq_claim pth l hsplit hne hnm
    simp [claimRootHref, ← hbp]
  · intro directory id path geometry properties assets stac_version parent dir pth r mt l
      hdir hpath hroot hpt hsplit hne hnm
    refine ⟨_, _, item_init_ok directory id path geometry properties assets
      stac_version parent dir pth r mt hdir hpath hroot hpt, ?_⟩
    have hbp := backPath_eq_claim pth l hsplit hne hnm
    simp [claimRootHref, ← hbp]

/-- Counterexample to C1 as stated: the catalog `second_cat` is
constructed with a parent (so the claim applies to it) and raw path `/`,
whose normalized path is empty — zero path segments.  The claimed
formula gives `/first_cat.json` (or `./first_cat.json` with the
`N = 0 ↦ .` default), but the code computes `../first_cat.json`. -/
theorem c1_root_link_href_counterexample :
    ∃ n x, StacCatalog.init "/tmp" "second_cat" "/" "d" "1.0.0" none (some demoRoot) =
        .ok (n, x) ∧
      n.path = "" ∧ pathSegments n.path = [] ∧
      ((n.links.filter (fun lk => lk.rel == RelationTypes.ROOT)).map Link.href).head? =
        some "../first_cat.json" ∧
      claimRootHref n.path "./first_cat.json" = "/first_cat.json" ∧
      ("../first_cat.json" : String) ≠ "/first_cat.json" ∧
      ("../first_cat.json" : String) ≠ "./first_cat.json" :=
  ⟨_, _, rfl, rfl, by decide, by decide, by decide, by decide, by decide⟩

/-- Witness for C1 at the scenario of the specification: the collection
at `/first_cat/first_coll` (2 segments) under the root catalog computes
root href `../../first_cat.json`, and the root catalog itself has root
href `./first_cat.json`. -/
theorem c1_root_link_href_witness :
    (∃ n x, StacCollection.init "/tmp" "first_coll" "/first_cat/first_coll"
        "My first collection" "Apple-DSL" Json.null "1.0.0" none (some demoRoot) =
        .ok (n, x) ∧
      ((n.base.links.filter (fun lk => lk.rel == RelationTypes.ROOT)).map Link.href).head?
        = some (claimRootHref "/first_cat/first_coll" "./first_cat.json")) ∧
    claimRootHref "/first_cat/first_coll" "./first_cat.json" = "../../first_cat.json" :=
  ⟨c1_root_link_href.2.2.1 "/tmp" "first_coll" "/first_cat/first_coll"
      "My first collection" "Apple-DSL" Json.null "1.0.0" none demoRoot
      "/tmp" "/first_cat/first_coll" "./first_cat.json" MediaType.STAC_CATALOG
      ["first_cat", "first_coll"] rfl rfl rfl (Or.inl ⟨rfl, rfl⟩)
      (by decide) (by decide) (by decide),
   by decide⟩

/-- C2 (amended): constructing a node under a parent appends exactly one
link to the parent link list, whose href is `.` followed by the node path
with **every occurrence** of the parent path removed (CPython
`str.replace`, not a prefix strip), then `/<id>.json`; the relation kind
is `child` for a catalog or collection and `item` for an item, the title
is the construction title of a catalog/collection and the id of an item.
(The original prefix-strip claim fails when the parent path occurs again
later in the node path, see the counterexample.) -/
theorem c2_child_link_written_into_parent :
    (∀ (directory id path description stac_version : String) (t : Option String)
        (parent : StacCatalog) (dir pth r : String) (mt : MediaType),
      Utils.fix_directory directory = .ok dir → Utils.fix_directory path = .ok pth →
      ((parent.links.filter (fun lk => lk.rel == RelationTypes.ROOT)).map Link.href).head?
        = some r →
      (parent.type = "Catalog" ∧ mt = MediaType.STAC_CATALOG) ∨
        (parent.type = "Collection" ∧ mt = MediaType.STAC_COLLECTION) →
      ∃ n pl, StacCatalog.init directory id path description stac_version t (some parent) =
          .ok (n, some pl) ∧
        pl = parent.links ++ [{ href := "." ++ pyReplace pth parent.path "" ++ "/" ++ id
                                  ++ ".json",
                                rel := RelationTypes.CHILD,
                                type := some MediaType.STAC_CATALOG, title := t }]) ∧
    (∀ (directory id path description license : String) (extent : Json)
        (stac_version : String) (t : Option String)
        (parent : StacCatalog) (dir pth r : String) (mt : MediaType),
      Utils.fix_directory directory = .ok dir → Utils.fix_directory path = .ok pth →
      ((parent.links.filter (fun lk => lk.rel == RelationTypes.ROOT)).map Link.href).head?
        = some r →
      (parent.type = "Catalog" ∧ mt = MediaType.STAC_CATALOG) ∨
        (parent.type = "Collection" ∧ mt = MediaType.STAC_COLLECTION) →
      ∃ n pl, StacCollection.init directory id path description license extent stac_version
          t (some parent) = .ok (n, some pl) ∧
        pl = parent.links ++ [{ href := "." ++ pyReplace pth parent.path "" ++ "/" ++ id
                                  ++ ".json",
                                rel := RelationTypes.CHILD,
                                type := some MediaType.STAC_CATALOG, title := t }]) ∧
    (∀ (directory id path : String) (geometry : Option GeometryVal)
        (properties : Properties) (assets : List (String × AssetObject))
        (stac_version : String)
        (parent : StacCatalog) (dir pth r : String) (mt : MediaType),
      Utils.fix_directory directory = .ok dir → Utils.fix_directory path = .ok pth →
      ((parent.links.filter (fun lk => lk.rel == RelationTypes.ROOT)).map Link.href).head?
        = some r →
      (parent.type = "Catalog" ∧ mt = MediaType.STAC_CATALOG) ∨
        (parent.type = "Collection" ∧ mt = MediaType.STAC_COLLECTION) →
      ∃ n pl, StacItem.init directory id path geometry properties assets stac_version
          (some parent) = .ok (n, pl) ∧
        pl = parent.links ++ [{ href := "." ++ pyReplace pth parent.path "" ++ "/" ++ id
                                  ++ ".json",
                                rel := RelationTypes.ITEM,
                                type := some MediaType.STAC_ITEM, title := some id }]) := by
  refine ⟨?_, ?_, ?_⟩
  · intro directory id path description stac_version t parent dir pth r mt
      hdir hpath hroot hpt
    exact ⟨_, _, StacCatalog.init_some_ok directory id path description stac_version t
      parent dir pth r mt hdir hpath hroot hpt, rfl⟩
  · intro directory id path description license extent stac_version t parent dir pth r mt
      hdir hpath hroot hpt
    exact ⟨_, _, collection_init_ok directory id path description license extent
      stac_version t parent dir pth r mt hdir hpath hroot hpt, rfl⟩
  · intro directory id path geometry properties assets stac_version parent dir pth r mt
      hdir hpath hroot hpt
    exact ⟨_, _, item_init_ok directory id path geometry properties assets stac_version
      parent dir pth r mt hdir hpath hroot hpt, rfl⟩

/-- Counterexample to C2 as stated: the parent path `/a` occurs twice in
the child path `/a/x/a`, so `replace` removes both occurrences and the
child link href is `./x/b.json`, not the prefix-strip `./x/a/b.json`. -/
theorem c2_child_link_written_into_parent_counterexample :
    ∃ a pl1 b pl2,
      StacCatalog.init "/tmp" "a" "/a" "d" "1.0.0" none (some demoRoot) = .ok (a, pl1) ∧
      StacCatalog.init "/tmp" "b" "/a/x/a" "d" "1.0.0" none (some a) = .ok (b, pl2) ∧
      ((pl2.getD []).map Link.href).getLast? = some "./x/b.json" ∧
      ("." ++ "/x/a" ++ "/" ++ "b" ++ ".json" : String) = "./x/a/b.json" ∧
      ("./x/b.json" : String) ≠ "./x/a/b.json" :=
  ⟨_, _, _, _, rfl, rfl, by decide, by decide, by decide⟩

/-- Witness for C2 at the item scenario of the specification: the item
`1st_item` at `/first_cat` under the root catalog adds to the catalog a
link with relation `item`, href `./first_cat/1st_item.json` and title
`1st_item`. -/
theorem c2_child_link_written_into_parent_witness :
    (∃ n pl, StacItem.init "/tmp" "1st_item" "/first_cat" none (Properties.init none) []
        "1.0.0" (some demoRoot) = .ok (n, pl) ∧
      pl = demoRoot.links ++
        [{ href := "." ++ pyReplace "/first_cat" demoRoot.path "" ++ "/" ++ "1st_item"
             ++ ".json",
           rel := RelationTypes.ITEM, type := some MediaType.STAC_ITEM,
           title := some "1st_item" }]) ∧
    ("." ++ pyReplace "/first_cat" demoRoot.path "" ++ "/" ++ "1st_item" ++ ".json"
      : String) = "./first_cat/1st_item.json" :=
  ⟨c2_child_link_written_into_parent.2.2 "/tmp" "1st_item" "/first_cat" none
      (Properties.init none) [] "1.0.0" demoRoot "/tmp" "/first_cat" "./first_cat.json"
      MediaType.STAC_CATALOG rfl rfl rfl (Or.inl ⟨rfl, rfl⟩),
   by decide⟩

/-- C3 (amended): the media kind carried by the **self** link of a node
and by the **child/item** link written into the parent matches the node
kind by the fixed mapping Catalog/Collection/Item to the corresponding
media kind; in particular both links of a collection carry the
collection media kind (in the source this holds because the links are
stamped while `type` is still `"Catalog"` and `STAC_COLLECTION` is the
Python enum alias of `STAC_CATALOG`).  Root links, however, always carry
the catalog media kind — which falsifies the original claim about *each*
computed link, see the counterexample. -/
theorem c3_media_kind_of_self_and_child_links :
    (∀ (directory id path description stac_version : String) (t : Option String)
        (dir : String),
      Utils.fix_directory directory = .ok dir → Utils.fix_directory path = .ok "" →
      ∃ n x, StacCatalog.init directory id path description stac_version t none =
          .ok (n, x) ∧
        (n.links.find? (fun l => l.rel == RelationTypes.SELF)).map Link.type =
          some (some MediaType.STAC_CATALOG)) ∧
    (∀ (directory id path description stac_version : String) (t : Option String)
        (parent : StacCatalog) (dir pth r : String) (mt : MediaType),
      Utils.fix_directory directory = .ok dir → Utils.fix_directory path = .ok pth →
      ((parent.links.filter (fun lk => lk.rel == RelationTypes.ROOT)).map Link.href).head?
        = some r →
      (parent.type = "Catalog" ∧ mt = MediaType.STAC_CATALOG) ∨
        (parent.type = "Collection" ∧ mt = MediaType.STAC_COLLECTION) →
      ∃ n pl, StacCatalog.init directory id path description stac_version t (some parent) =
          .ok (n, some pl) ∧
        (n.links.find? (fun l => l.rel == RelationTypes.SELF)).map Link.type =
          some (some MediaType.STAC_CATALOG) ∧
        (pl.getLast?).map Link.type = some (some MediaType.STAC_CATALOG)) ∧
    (∀ (directory id path description license : String) (extent : Json)
        (stac_version : String) (t : Option String)
        (parent : StacCatalog) (dir pth r : String) (mt : MediaType),
      Utils.fix_directory directory = .ok dir → Utils.fix_directory path = .ok pth →
      ((parent.links.filter (fun lk => lk.rel == RelationTypes.ROOT)).map Link.href).head?
        = some r →
      (parent.type = "Catalog" ∧ mt = MediaType.STAC_CATALOG) ∨
        (parent.type = "Collection" ∧ mt = MediaType.STAC_COLLECTION) →
      ∃ n pl, StacCollection.init directory id path description license extent stac_version
          t (some parent) = .ok (n, some pl) ∧
        (n.base.links.find? (fun l => l.rel == RelationTypes.SELF)).map Link.type =
          some (some MediaType.STAC_COLLECTION) ∧
        (pl.getLast?).map Link.type = some (some MediaType.STAC_COLLECTION)) ∧
    (∀ (directory id path : String) (geometry : Option GeometryVal)
        (properties : Properties) (assets : List (String × AssetObject))
        (stac_version : String)
        (parent : StacCatalog) (dir pth r : String) (mt : MediaType),
      Utils.fix_directory directory = .ok dir → Utils.fix_directory path = .ok pth →
      ((parent.links.filter (fun lk => lk.rel == RelationTypes.ROOT)).map Link.href).head?
        = some r →
      (parent.type = "Catalog" ∧ mt = MediaType.STAC_CATALOG) ∨
        (parent.type = "Collection" ∧ mt = MediaType.STAC_COLLECTION) →
      ∃ n pl, StacItem.init directory id path geometry properties assets stac_version
          (some parent) = .ok (n, pl) ∧
        (n.links.find? (fun l => l.rel == RelationTypes.SELF)).map Link.type =
          some (some MediaType.STAC_ITEM) ∧
        (pl.getLast?).map Link.type = some (some MediaType.STAC_ITEM) ∧
        (n.links.map Link.type).head? = some (some MediaType.STAC_CATALOG)) := by
  refine ⟨?_, ?_, ?_, ?_⟩
  · intro directory id path description stac_version t dir hdir hpath
    exact ⟨_, _, StacCatalog.init_none_ok directory id path description stac_version t dir
      hdir hpath, rfl⟩
  · intro directory id path description stac_version t parent dir pth r mt
      hdir hpath hroot hpt
    refine ⟨_, _, StacCatalog.init_some_ok directory id path description stac_version t
      parent dir pth r mt hdir hpath hroot hpt, rfl, ?_⟩
    simp only [List.getLast?_concat]
    rfl
  · intro directory id path description license extent stac_version t parent dir pth r mt
      hdir hpath hroot hpt
    refine ⟨_, _, collection_init_ok directory id path description license extent
      stac_version t parent dir pth r mt hdir hpath hroot hpt, rfl, ?_⟩
    simp only [List.getLast?_concat]
    rfl
  · intro directory id path geometry properties assets stac_version parent dir pth r mt
      hdir hpath hroot hpt
    refine ⟨_, _, item_init_ok directory id path geometry properties assets
      stac_version parent dir pth r mt hdir hpath hroot hpt, rfl, ?_, rfl⟩
    simp only [List.getLast?_concat]
    rfl

/-- Counterexample to C3 as stated: the root link of an item (its first
computed link) carries the catalog media kind `application/json`, not the
item media kind, so not *each* computed link of a node matches the node
kind. -/
theorem c3_media_kind_counterexample :
    ∃ n pl, StacItem.init "/tmp" "1st_item" "/first_cat" none (Properties.init none) []
        "1.0.0" (some demoRoot) = .ok (n, pl) ∧
      (n.links.map Link.type).head? = some (some MediaType.STAC_CATALOG) ∧
      some MediaType.STAC_CATALOG ≠ some MediaType.STAC_ITEM ∧
      MediaType.STAC_CATALOG.value = "application/json" :=
  ⟨_, _, rfl, by decide, by decide, by decide⟩

/-- Witness for C3 at the collection scenario: the self link of the
collection and the child link gained by the root catalog both carry the
collection media kind. -/
theorem c3_media_kind_of_self_and_child_links_witness :
    ∃ n pl, StacCollection.init "/tmp" "first_coll" "/first_cat/first_coll"
        "My first collection" "Apple-DSL" Json.null "1.0.0" none (some demoRoot) =
        .ok (n, some pl) ∧
      (n.base.links.find? (fun l => l.rel == RelationTypes.SELF)).map Link.type =
        some (some MediaType.STAC_COLLECTION) ∧
      (pl.getLast?).map Link.type = some (some MediaType.STAC_COLLECTION) := by
  obtain ⟨n, pl, h1, h2, h3⟩ := c3_media_kind_of_self_and_child_links.2.2.1 "/tmp"
    "first_coll" "/first_cat/first_coll" "My first collection" "Apple-DSL" Json.null
    "1.0.0" none demoRoot "/tmp" "/first_cat/first_coll" "./first_cat.json"
    MediaType.STAC_CATALOG rfl rfl rfl (Or.inl ⟨rfl, rfl⟩)
  exact ⟨n, pl, h1, h2, h3⟩

/-- C4: for a catalog or collection constructed under a parent, any
subsequent title assignment (a string or `None`) updates both the title
of the node self link and the title of the link located in the parent
link list by exact match on the recomputed child href; both reads then
return exactly the assigned value, so the two copies are never left
inconsistent. -/
theorem c4_title_propagation :
    (∀ (directory id path description stac_version : String) (t : Option String)
        (parent : StacCatalog) (dir pth r : String) (mt : MediaType),
      Utils.fix_directory directory = .ok dir → Utils.fix_directory path = .ok pth →
      ((parent.links.filter (fun lk => lk.rel == RelationTypes.ROOT)).map Link.href).head?
        = some r →
      (parent.type = "Catalog" ∧ mt = MediaType.STAC_CATALOG) ∨
        (parent.type = "Collection" ∧ mt = MediaType.STAC_COLLECTION) →
      ∃ n pl, StacCatalog.init directory id path description stac_version t (some parent) =
          .ok (n, some pl) ∧
        ∀ v : Option String, ∃ n2 pl2,
          StacCatalog.set_title n (some { parent with links := pl }) v = (n2, some pl2) ∧
          (n2.links.find? (fun l => l.rel == RelationTypes.SELF)).map Link.title =
            some v ∧
          (pl2.find? (fun l => l.href ==
              ("." ++ pyReplace pth parent.path "" ++ "/" ++ id ++ ".json"))).map
            Link.title = some v) ∧
    (∀ (directory id path description license : String) (extent : Json)
        (stac_version : String) (t : Option String)
        (parent : StacCatalog) (dir pth r : String) (mt : MediaType),
      Utils.fix_directory directory = .ok dir → Utils.fix_directory path = .ok pth →
      ((parent.links.filter (fun lk => lk.rel == RelationTypes.ROOT)).map Link.href).head?
        = some r →
      (parent.type = "Catalog" ∧ mt = MediaType.STAC_CATALOG) ∨
        (parent.type = "Collection" ∧ mt = MediaType.STAC_COLLECTION) →
      ∃ n pl, StacCollection.init directory id path description license extent stac_version
          t (some parent) = .ok (n, some pl) ∧
        ∀ v : Option String, ∃ n2 pl2,
          StacCollection.set_title n (some { parent with links := pl }) v =
            (n2, some pl2) ∧
          (n2.base.links.find? (fun l => l.rel == RelationTypes.SELF)).map Link.title =
            some v ∧
          (pl2.find? (fun l => l.href ==
              ("." ++ pyReplace pth parent.path "" ++ "/" ++ id ++ ".json"))).map
            Link.title = some v) := by
  constructor
  · intro directory id path description stac_version t parent dir pth r mt
      hdir hpath hroot hpt
    refine ⟨_, _, StacCatalog.init_some_ok directory id path description stac_version t
      parent dir pth r mt hdir hpath hroot hpt, ?_⟩
    intro v
    refine ⟨_, _, rfl, rfl, ?_⟩
    obtain ⟨l0, hfind⟩ := find?_append_last
      (fun l => l.href == ("." ++ pyReplace pth parent.path "" ++ "/" ++ id ++ ".json"))
      parent.links
      { href := "." ++ pyReplace pth parent.path "" ++ "/" ++ id ++ ".json",
        rel := RelationTypes.CHILD, type := some MediaType.STAC_CATALOG, title := t }
      (by simp)
    have hupd := updateFirst_find?
      (fun l => l.href == ("." ++ pyReplace pth parent.path "" ++ "/" ++ id ++ ".json"))
      (fun l => { l with title := v }) (fun l h => h) _ l0 hfind
    simp only [StacCatalog.set_title, StacCatalog.update_child_link_title]
    rw [hupd]
    rfl
  · intro directory id path description license extent stac_version t parent dir pth r mt
      hdir hpath hroot hpt
    refine ⟨_, _, collection_init_ok directory id path description license extent
      stac_version t parent dir pth r mt hdir hpath hroot hpt, ?_⟩
    intro v
    refine ⟨_, _, rfl, rfl, ?_⟩
    obtain ⟨l0, hfind⟩ := find?_append_last
      (fun l => l.href == ("." ++ pyReplace pth parent.path "" ++ "/" ++ id ++ ".json"))
      parent.links
      { href := "." ++ pyReplace pth parent.path "" ++ "/" ++ id ++ ".json",
        rel := RelationTypes.CHILD, type := some MediaType.STAC_CATALOG, title := t }
      (by simp)
    have hupd := updateFirst_find?
      (fun l => l.href == ("." ++ pyReplace pth parent.path "" ++ "/" ++ id ++ ".json"))
      (fun l => { l with title := v }) (fun l h => h) _ l0 hfind
    simp only [StacCollection.set_title, StacCatalog.set_title,
      StacCatalog.update_child_link_title]
    rw [hupd]
    rfl

/-- Witness for C4: retitling the collection of the scenario to
`First collection` updates both its self link and the matching child
link of the root catalog. -/
theorem c4_title_propagation_witness :
    ∃ n pl, StacCollection.init "/tmp" "first_coll" "/first_cat/first_coll"
        "My first collection" "Apple-DSL" Json.null "1.0.0" none (some demoRoot) =
        .ok (n, some pl) ∧
      ∃ n2 pl2,
        StacCollection.set_title n (some { demoRoot with links := pl })
            (some "First collection") = (n2, some pl2) ∧
        (n2.base.links.find? (fun l => l.rel == RelationTypes.SELF)).map Link.title =
          some (some "First collection") ∧
        (pl2.find? (fun l => l.href ==
            ("." ++ pyReplace "/first_cat/first_coll" demoRoot.path "" ++ "/" ++
              "first_coll" ++ ".json"))).map Link.title =
          some (some "First collection") := by
  obtain ⟨n, pl, h1, h2⟩ := c4_title_propagation.2 "/tmp" "first_coll"
    "/first_cat/first_coll" "My first collection" "Apple-DSL" Json.null "1.0.0" none
    demoRoot "/tmp" "/first_cat/first_coll" "./first_cat.json" MediaType.STAC_CATALOG
    rfl rfl rfl (Or.inl ⟨rfl, rfl⟩)
  exact ⟨n, pl, h1, h2 (some "First collection")⟩

/-- C5 (amended): the code never rejects a non-root node with an empty
normalized path: constructing a catalog under a parent with raw path `/`
(normalized to the empty path) succeeds with no error, and passing the
empty string itself as the path raises the normalization `IndexError`,
which is not the invalid-configuration `ValueError`. -/
theorem c5_empty_path_non_root_not_rejected :
    (∀ (directory id description stac_version : String) (t : Option String)
        (parent : StacCatalog) (dir r : String) (mt : MediaType),
      Utils.fix_directory directory = .ok dir →
      ((parent.links.filter (fun lk => lk.rel == RelationTypes.ROOT)).map Link.href).head?
        = some r →
      (parent.type = "Catalog" ∧ mt = MediaType.STAC_CATALOG) ∨
        (parent.type = "Collection" ∧ mt = MediaType.STAC_COLLECTION) →
      ∃ n x, StacCatalog.init directory id "/" description stac_version t (some parent) =
          .ok (n, x) ∧ n.path = "") ∧
    (∀ (directory id description stac_version : String) (t : Option String)
        (parent : Option StacCatalog),
      StacCatalog.init directory id "" description stac_version t parent =
        .error PyErr.indexError) ∧
    PyErr.indexError ≠ PyErr.valueError "When no parent is set, path must be set to /" := by
  refine ⟨?_, ?_, by decide⟩
  · intro directory id description stac_version t parent dir r mt hdir hroot hpt
    exact ⟨_, _, StacCatalog.init_some_ok directory id "/" description stac_version t
      parent dir "" r mt hdir rfl hroot hpt, rfl⟩
  · intro directory id description stac_version t parent
    cases hd : Utils.fix_directory directory with
    | error e =>
      have he := fix_directory_error_eq _ _ hd
      subst he
      simp [StacCatalog.init, hd]
    | ok dir =>
      simp only [StacCatalog.init, hd]
      rfl

/-- Counterexample to C5 as stated: `second_cat` is a non-root node (it
has a parent) whose normalized path is empty, yet its construction
proceeds without any error; and the empty-string path raises an
`IndexError`, not an invalid-configuration `ValueError`. -/
theorem c5_empty_path_non_root_not_rejected_counterexample :
    (∃ n x, StacCatalog.init "/tmp" "second_cat" "/" "d" "1.0.0" none (some demoRoot) =
        .ok (n, x) ∧ n.path = "") ∧
    StacCatalog.init "/tmp" "second_cat" "" "d" "1.0.0" none (some demoRoot) =
      .error PyErr.indexError ∧
    PyErr.indexError ≠ PyErr.valueError "When no parent is set, path must be set to /" :=
  ⟨⟨_, _, rfl, rfl⟩, rfl, by decide⟩

/-- Witness for C5 (amended) at a concrete parent. -/
theorem c5_empty_path_non_root_not_rejected_witness :
    ∃ n x, StacCatalog.init "/tmp" "second_cat" "/" "d" "1.0.0" none (some demoRoot) =
        .ok (n, x) ∧ n.path = "" :=
  c5_empty_path_non_root_not_rejected.1 "/tmp" "second_cat" "d" "1.0.0" none demoRoot
    "/tmp" "./first_cat.json" MediaType.STAC_CATALOG rfl rfl (Or.inl ⟨rfl, rfl⟩)

/-- A successful dict lookup needs a non-empty dict. -/
lemma dictGet_some_ne_nil (d : List (String × Json)) (k : String) (v : Json)
    (h : dictGet d k = some v) : d ≠ [] := by
  intro hnil
  rw [hnil] at h
  simp [dictGet, List.find?] at h

/-- The collection-only fields written after the inherited projection do
not disturb a key distinct from all of them. -/
lemma dictGet_collection_extras (c : StacCollection) (k : String)
    (h1 : k ≠ "license") (h2 : k ≠ "extent") (h3 : k ≠ "keywords")
    (h4 : k ≠ "providers") (h5 : k ≠ "summaries") (h6 : k ≠ "assets") :
    dictGet c.to_json k = dictGet c.base.to_json k := by
  simp only [StacCollection.to_json]
  cases hA : c.assets <;> cases hS : c.summaries <;>
    by_cases hP : c.providers.length > 0 <;> by_cases hK : c.keywords.length > 0 <;>
    simp [hP, hK, dictGet_dictSet_ne, h1, h2, h3, h4, h5, h6]

/-- Core of C7 on the inherited catalog projection: after
`add_stac_extension(uri, props)` the projection carries `uri` inside
`stac_extensions` and every key of `props` at top level with its value,
under the reserved-key side conditions forced by the projection order. -/
lemma c7core (c : StacCatalog) (uri : String) (props : List (String × Json))
    (hnd : (dictKeys c.stac_extensions_properties).Nodup)
    (hndp : (dictKeys props).Nodup)
    (hse : "stac_extensions" ∉ dictKeys c.stac_extensions_properties)
    (hsep : "stac_extensions" ∉ dictKeys props) :
    (∃ xs, dictGet ((c.add_stac_extension uri props).to_json) "stac_extensions" =
        some (Json.arr xs) ∧ Json.str uri ∈ xs) ∧
    (∀ (k : String) (v : Json), dictGet props k = some v →
      (c.title.isSome → k ≠ "title") →
      dictGet ((c.add_stac_extension uri props).to_json) k = some v) := by
  have hpos : (c.stac_extensions ++ [uri]).length > 0 := by simp
  have hse_all : "stac_extensions" ∉ dictKeys (dictUpdate c.stac_extensions_properties props) := by
    rw [mem_dictKeys_dictUpdate]
    rintro (h | h)
    · exact hse h
    · exact hsep h
  constructor
  · refine ⟨(c.stac_extensions ++ [uri]).map Json.str, ?_, by simp⟩
    simp only [StacCatalog.to_json, StacCatalog.add_stac_extension, hpos, if_true]
    have hbase :
        dictGet
          (dictSet (dictSet (dictSet (dictSet (dictSet (dictSet []
            "type" (Json.str c.type)) "stac_version" (Json.str c.stac_version))
            "id" (Json.str c.id)) "description" (Json.str c.description))
            "links" (Json.arr (c.links.map Link.to_dict)))
            "stac_extensions" (Json.arr ((c.stac_extensions ++ [uri]).map Json.str)))
          "stac_extensions" =
          some (Json.arr ((c.stac_extensions ++ [uri]).map Json.str)) :=
      dictGet_dictSet_same _ _ _
    cases hlen : (dictUpdate c.stac_extensions_properties props).length with
    | zero =>
      simp only [hlen, gt_iff_lt, Nat.lt_irrefl, if_false]
      cases ht : c.title with
      | none => exact hbase
      | some tt =>
        rw [dictGet_dictSet_ne _ _ _ _ (by decide)]
        exact hbase
    | succ m =>
      simp only [hlen, gt_iff_lt, Nat.succ_pos, if_true]
      have hpres :
          dictGet (dictUpdate (dictSet (dictSet (dictSet (dictSet (dictSet (dictSet []
            "type" (Json.str c.type)) "stac_version" (Json.str c.stac_version))
            "id" (Json.str c.id)) "description" (Json.str c.description))
            "links" (Json.arr (c.links.map Link.to_dict)))
            "stac_extensions" (Json.arr ((c.stac_extensions ++ [uri]).map Json.str)))
            (dictUpdate c.stac_extensions_properties props)) "stac_extensions" =
          some (Json.arr ((c.stac_extensions ++ [uri]).map Json.str)) := by
        rw [dictGet_dictUpdate_not_mem _ _ _ hse_all]
        exact hbase
      cases ht : c.title with
      | none => exact hpres
      | some tt =>
        rw [dictGet_dictSet_ne _ _ _ _ (by decide)]
        exact hpres
  · intro k v hk htitle
    have hvall : dictGet (dictUpdate c.stac_extensions_properties props) k = some v :=
      dictGet_dictUpdate_of_get props c.stac_extensions_properties k v hndp hk
    have hnnil := dictGet_some_ne_nil _ _ _ hvall
    have hlen : (dictUpdate c.stac_extensions_properties props).length > 0 :=
      List.length_pos.mpr hnnil
    have hnd_all : (dictKeys (dictUpdate c.stac_extensions_properties props)).Nodup :=
      nodup_dictKeys_dictUpdate props c.stac_extensions_properties hnd
    simp only [StacCatalog.to_json, StacCatalog.add_stac_extension, hpos, if_true, hlen]
    have hmain :
        dictGet (dictUpdate (dictSet (dictSet (dictSet (dictSet (dictSet (dictSet []
          "type" (Json.str c.type)) "stac_version" (Json.str c.stac_version))
          "id" (Json.str c.id)) "description" (Json.str c.description))
          "links" (Json.arr (c.links.map Link.to_dict)))
          "stac_extensions" (Json.arr ((c.stac_extensions ++ [uri]).map Json.str)))
          (dictUpdate c.stac_extensions_properties props)) k = some v :=
      dictGet_dictUpdate_of_get _ _ k v hnd_all hvall
    cases ht : c.title with
    | none => exact hmain
    | some tt =>
      rw [dictGet_dictSet_ne _ _ _ _ (htitle (by rw [ht]; rfl))]
      exact hmain

/-- C7 (amended): `add_stac_extension(uri, props)` makes the projection
of a catalog or collection contain `uri` in `stac_extensions` and every
key of `props` at top level with its given value, with flat last-write-
wins merging and no error — provided the extension keys stay clear of
the keys the projection writes *after* the merge: `stac_extensions`
itself, `title` when the node has a title, and for collections also
`license`, `extent`, `keywords`, `providers`, `summaries`, `assets`
(those are overwritten by the node fields, see the counterexample). -/
theorem c7_add_stac_extension_top_level_merge :
    (∀ (c : StacCatalog) (uri : String) (props : List (String × Json)),
      (dictKeys c.stac_extensions_properties).Nodup →
      (dictKeys props).Nodup →
      "stac_extensions" ∉ dictKeys c.stac_extensions_properties →
      "stac_extensions" ∉ dictKeys props →
      (∃ xs, dictGet ((c.add_stac_extension uri props).to_json) "stac_extensions" =
          some (Json.arr xs) ∧ Json.str uri ∈ xs) ∧
      (∀ (k : String) (v : Json), dictGet props k = some v →
        (c.title.isSome → k ≠ "title") →
        dictGet ((c.add_stac_extension uri props).to_json) k = some v)) ∧
    (∀ (c : StacCollection) (uri : String) (props : List (String × Json)),
      (dictKeys c.base.stac_extensions_properties).Nodup →
      (dictKeys props).Nodup →
      "stac_extensions" ∉ dictKeys c.base.stac_extensions_properties →
      "stac_extensions" ∉ dictKeys props →
      (∃ xs, dictGet ((c.add_stac_extension uri props).to_json) "stac_extensions" =
          some (Json.arr xs) ∧ Json.str uri ∈ xs) ∧
      (∀ (k : String) (v : Json), dictGet props k = some v →
        (c.base.title.isSome → k ≠ "title") →
        k ≠ "license" → k ≠ "extent" → k ≠ "keywords" → k ≠ "providers" →
        k ≠ "summaries" → k ≠ "assets" →
        dictGet ((c.add_stac_extension uri props).to_json) k = some v)) := by
  constructor
  · intro c uri props hnd hndp hse hsep
    exact c7core c uri props hnd hndp hse hsep
  · intro c uri props hnd hndp hse hsep
    have hcore := c7core c.base uri props hnd hndp hse hsep
    constructor
    · obtain ⟨xs, hget, hmem⟩ := hcore.1
      refine ⟨xs, ?_, hmem⟩
      rw [dictGet_collection_extras (c.add_stac_extension uri props) "stac_extensions"
        (by decide) (by decide) (by decide) (by decide) (by decide) (by decide)]
      exact hget
    · intro k v hk htitle h1 h2 h3 h4 h5 h6
      rw [dictGet_collection_extras (c.add_stac_extension uri props) k h1 h2 h3 h4 h5 h6]
      exact hcore.2 k v hk htitle

/-- Counterexample to C7 as stated: on a titled catalog, an extension
property named `title` is not a top-level key with its given value —
`to_json` writes the node title after the merge and overwrites it. -/
theorem c7_add_stac_extension_counterexample :
    ∃ c x, StacCatalog.init "/tmp" "first_cat" "/" "d" "1.0.0" (some "T") none =
        .ok (c, x) ∧
      dictGet [("title", Json.str "X")] "title" = some (Json.str "X") ∧
      dictGet ((c.add_stac_extension "https://example.com/ext/schema.json"
          [("title", Json.str "X")]).to_json) "title" = some (Json.str "T") ∧
      some (Json.str "T") ≠ some (Json.str "X") :=
  ⟨_, _, rfl, rfl, rfl, fun h => by
    injection h with h1
    injection h1 with h2
    exact absurd h2 (by decide)⟩

/-- Witness for C7 at the scenario of the specification:
`add_stac_extension("<uri>", {"ssys:targets": ["Mars"]})` on the
collection yields a projection containing the uri in `stac_extensions`
and a top-level key `ssys:targets` equal to `["Mars"]`. -/
theorem c7_add_stac_extension_top_level_merge_witness :
    ∃ c pl, StacCollection.init "/tmp" "first_coll" "/first_cat/first_coll"
        "My first collection" "Apple-DSL" Json.null "1.0.0" none (some demoRoot) =
        .ok (c, pl) ∧
      (∃ xs, dictGet ((c.add_stac_extension
          "https://raw.githubusercontent.com/thareUSGS/ssys/main/json-schema/schema.json"
          [("ssys:targets", Json.arr [Json.str "Mars"])]).to_json) "stac_extensions" =
          some (Json.arr xs) ∧
        Json.str
          "https://raw.githubusercontent.com/thareUSGS/ssys/main/json-schema/schema.json"
          ∈ xs) ∧
      dictGet ((c.add_stac_extension
          "https://raw.githubusercontent.com/thareUSGS/ssys/main/json-schema/schema.json"
          [("ssys:targets", Json.arr [Json.str "Mars"])]).to_json) "ssys:targets" =
        some (Json.arr [Json.str "Mars"]) := by
  refine ⟨_, _, rfl, ?_, ?_⟩
  · exact (c7_add_stac_extension_top_level_merge.2 _
      "https://raw.githubusercontent.com/thareUSGS/ssys/main/json-schema/schema.json"
      [("ssys:targets", Json.arr [Json.str "Mars"])]
      (by decide) (by decide) (by decide) (by decide)).1
  · exact (c7_add_stac_extension_top_level_merge.2 _
      "https://raw.githubusercontent.com/thareUSGS/ssys/main/json-schema/schema.json"
      [("ssys:targets", Json.arr [Json.str "Mars"])]
      (by decide) (by decide) (by decide) (by decide)).2
      "ssys:targets" (Json.arr [Json.str "Mars"]) rfl
      (fun h => by simp at h) (by decide) (by decide) (by decide) (by decide)
      (by decide) (by decide)
